import Mathlib

/-!
# vixMntApiSample: the mount orchestration of `DoMount` and its teardown

A shallow embedding of `src/vixMntApiSample.cpp`.  The provider (vixDiskLib,
vixMntapi) and the host calls are external: a run is modelled as the list of
calls the program issues (`Call`), given the results those calls return
(`World`).  `DoMount` is embedded phase by phase; a failed `CHECK` is the
`Exit.failedCheck` outcome of a phase, after which control is at the `cleanup`
label, and an exception leaving the function is `Exit.raised`.
-/

namespace VixMntApiSample

/-! ## Status codes -/

/-- A provider status (`VixError`, an unsigned 64-bit integer). -/
abbrev VixError := Nat

/-- Modelled from the spec: the constant `VIX_OK` is declared in `vixDiskLib.h`,
which is not among the sources; it is the one status that is not a failure. -/
def VIX_OK : VixError := 0

/-- Modelled from the spec: the test `VIX_FAILED` is declared in `vixDiskLib.h`,
which is not among the sources; a status is a failure when it differs from
`VIX_OK`. -/
def VIX_FAILED (err : VixError) : Bool := err != VIX_OK

/-- Line 47: the already-mounted status. -/
def ERROR_MNTAPI_VOLUME_ALREADY_MOUNTED : VixError := 24305

/-! ## Handles and pointers -/

/-- A disk handle variable: `NULL`, the handle opened on the remote connection
for `disks[i]`, or the handle opened on the local connection for
`childDisks[i]`. -/
inductive VixDiskLibHandle where
  | null
  | remote (i : Nat)
  | child (i : Nat)
  deriving DecidableEq, Repr

/-- A connection variable.  `indeterminate` is the value of `localConnection`
when its initialiser (line 849) was jumped over by `goto cleanup`. -/
inductive VixDiskLibConnection where
  | indeterminate
  | null
  | localHost
  | remoteHost
  deriving DecidableEq, Repr

/-- A pointer the program only tests against `NULL` and passes back. -/
inductive Ptr where
  | null
  | obtained
  deriving DecidableEq, Repr

/-- Lines 175-178.  A volume handle is `volumeHandles[v]` (`some v`) or 0
(`none`); a volume info pointer is the info fetched for volume `v` (`some v`)
or 0 (`none`). -/
structure MountedVolume where
  volumeHandle : Option Nat
  volInfo : Option Nat
  deriving DecidableEq, Repr

/-! ## Calls issued by the program -/

/-- The provider and host calls of `main` (mount command) and `DoMount`, with
the arguments that identify the resource, and the `Cleanup Stuff:` line that
opens the cleanup block. -/
inductive Call where
  | VixDiskLib_Init
  | VixDiskLib_InitEx
  | VixDiskLib_PrepareForAccess
  | VixDiskLib_Connect_remote
  | VixDiskLib_ConnectEx
  | VixDiskLib_EndAccess
  | VixDiskLib_Exit
  | VixMntapi_Init
  | VixDiskLib_Connect_local
  | VixDiskLib_Open_remote (i : Nat) (path : String)
  | VixDiskLib_GetTransportMode (i : Nat)
  | VixDiskLib_CreateChild (i : Nat) (childPath : String)
  | VixDiskLib_Open_child (i : Nat) (childPath : String)
  | VixDiskLib_Attach (i : Nat)
  | VixMntapi_OpenDiskSet (diskHandles : List VixDiskLibHandle) (numberOfDisks : Nat)
  | VixMntapi_GetDiskSetInfo
  | VixMntapi_GetVolumeHandles
  | VixMntapi_MountVolume (v : Nat)
  | VixMntapi_GetVolumeInfo (v : Nat)
  | DefineDosDeviceW_define (target : String)
  | CreateFileW
  | FindFirstFileW
  | FindNextFileW
  | FindClose
  | MessageBoxW
  | DefineDosDeviceW_remove (target : String)
  | printf_CleanupStuff
  | VixMntapi_FreeDiskSetInfo (info : Ptr)
  | VixMntapi_FreeVolumeHandles
  | VixMntapi_FreeVolumeInfo (info : Option Nat)
  | VixMntapi_DismountVolume (handle : Option Nat)
  | VixMntapi_CloseDiskSet (handle : Ptr)
  | VixDiskLib_Close (handle : VixDiskLibHandle)
  | VixDiskLib_Unlink (connection : VixDiskLibConnection) (path : String)
  | DeleteFileA (path : String)
  | VixDiskLib_Disconnect (connection : VixDiskLibConnection)
  | VixMntapi_Exit
  deriving DecidableEq, Repr

/-! ## The outside world -/

/-- What the provider, the host and the operator return during one run.  Each
call site of `DoMount` runs at most once per disk index and per volume index,
so a result per index fixes a run. -/
structure World where
  /-- Status of `VixDiskLib_Init` / `VixDiskLib_InitEx` in `main`. -/
  diskLibInit : VixError
  /-- Status of `VixDiskLib_Connect` / `VixDiskLib_ConnectEx` in `main`. -/
  connectRemote : VixError
  /-- Content of the local array `buffer` before anything is written to it. -/
  bufferGarbage : String
  mntapiInit : VixError
  connectLocal : VixError
  openRemote : Nat → VixError
  createChild : Nat → VixError
  openChild : Nat → VixError
  attach : Nat → VixError
  openDiskSet : VixError
  getDiskSetInfo : VixError
  getVolumeHandles : VixError
  /-- Number of volume handles returned by `VixMntapi_GetVolumeHandles`. -/
  numVolumes : Nat
  /-- The number read by `scanf` into `j` (line 899). -/
  startVolume : Int
  mountVolume : Nat → VixError
  getVolumeInfo : Nat → VixError
  /-- Field `symbolicLink` of the info of volume `v`; `none` is `NULL`. -/
  symbolicLink : Nat → Option String
  /-- Whether `DefineDosDeviceW` (define) succeeds for volume `v`. -/
  defineDosDevice : Nat → Bool
  /-- Whether `CreateFileW` returns a valid handle for volume `v`. -/
  createFile : Nat → Bool
  /-- Whether `FindFirstFileW` returns a valid handle for volume `v`. -/
  findFirst : Nat → Bool
  /-- How many times `FindNextFileW` succeeds for volume `v` before it fails. -/
  findNextCount : Nat → Nat

/-- The fields of `appGlobals` (lines 49-71) read on the mount path, as left by
`ParseArguments`. -/
structure AppGlobals where
  vmxSpec : Option String
  diskPath : String
  useInitEx : Bool
  ssMoRef : Option String
  transportModes : Option String

/-! ## Child disk names (lines 827-840) -/

/-- The tokens `strtok` yields for delimiter `=`: the maximal runs of
characters other than `=`.  `cur` is the token being read, reversed. -/
def strtokTokens : List Char → List Char → List (List Char)
  | [], cur => if cur = [] then [] else [cur.reverse]
  | c :: cs, cur =>
    if c = '=' then
      (if cur = [] then strtokTokens cs [] else cur.reverse :: strtokTokens cs [])
    else strtokTokens cs (c :: cur)

/-- Lines 828-834: every token is copied into `buffer`, so the loop leaves the
last token there; with no token `buffer` is never written. -/
def vmIdentifier (garbage : String) (vmxSpec : String) : String :=
  match (strtokTokens vmxSpec.data []).getLast? with
  | some tok => String.mk tok
  | none => garbage

/-- Line 837: the name of the child disk of `disks[i]`. -/
def childDiskName (buffer : String) (i : Nat) : String :=
  "C:\\" ++ buffer ++ "-childDisk-" ++ toString (i + 1) ++ ".vmdk"

/-- Lines 835-839: one name per requested disk. -/
def childDiskNames (buffer : String) (n : Nat) : List String :=
  (List.range n).map (childDiskName buffer)

/-! ## Device name derivation (lines 927-932) -/

/-- The method `substr(pos)`: throws `out_of_range` (here `none`) when `pos` is
past the end. -/
def substr (s : List Char) (pos : Nat) : Option (List Char) :=
  if pos ≤ s.length then some (s.drop pos) else none

/-- The method `erase(pos)`: removes everything from `pos`; throws
`out_of_range` (here `none`) when `pos` is past the end. -/
def erase (s : List Char) (pos : Nat) : Option (List Char) :=
  if pos ≤ s.length then some (s.take pos) else none

/-- The expression `length() - 1` in `size_t` (64 bits, modulus
18446744073709551616): it wraps for the empty string. -/
def lengthMinusOne (s : List Char) : Nat :=
  (s.length + 18446744073709551616 - 1) % 18446744073709551616

/-- Lines 927-932: `substr(3)`, then `erase(length() - 1)`, then the prefix.
Inserting a null `char` pointer into the stream leaves nothing to work on (the
insertion is undefined: an access violation, or an empty stream on which
`substr(3)` throws); that and both `out_of_range` cases are `none`. -/
def deviceName : Option String → Option String
  | none => none
  | some link =>
    (substr link.data 3).bind fun s =>
      (erase s (lengthMinusOne s)).map fun t => "\\Device" ++ String.mk t

/-! ## State of `DoMount` -/

/-- The variables of `DoMount` that the cleanup block reads or that carry over
between loop iterations, and the two global vectors (lines 180-181). -/
structure MountState where
  diskHandlesCount : Nat
  diskHandles : List VixDiskLibHandle
  childDisks : List String
  localConnection : VixDiskLibConnection
  diskSetHandle : Ptr
  diskSetInfo : Ptr
  volumeHandles : Ptr
  numVolumes : Nat
  j : Int
  newVolume : MountedVolume
  mountedVolumes : List MountedVolume
  mountedDisks : List Ptr
  deriving DecidableEq, Repr

/-- How a stretch of `DoMount` ends: control goes on, a `CHECK` failed (control
is at `cleanup`), or an exception left the function. -/
inductive Exit where
  | fallThrough
  | failedCheck
  | raised
  deriving DecidableEq, Repr

/-- A stretch of `DoMount`: how it ended, the state then, the calls issued. -/
structure Phase where
  exit : Exit
  st : MountState
  trace : List Call

/-- Sequencing: the next stretch runs only when this one fell through. -/
def Phase.andThen (p : Phase) (f : MountState → Phase) : Phase :=
  match p.exit with
  | Exit.fallThrough =>
    let q := f p.st
    { exit := q.exit, st := q.st, trace := p.trace ++ q.trace }
  | _ => p

/-- The macro `CHECK` (lines 164-173) after a call with status `err`: on
failure jump to `cleanup` with the state as it was, else go on with `ok`. -/
def CHECK (err : VixError) (s ok : MountState) (calls : List Call) : Phase :=
  if VIX_FAILED err then { exit := Exit.failedCheck, st := s, trace := calls }
  else { exit := Exit.fallThrough, st := ok, trace := calls }

/-! ## `DoMount`, acquisition (lines 807-979) -/

/-- Lines 809-840: the state when `VixMntapi_Init` is called.  Every entry of
`diskHandles` is `NULL`; `localConnection` has not been initialised yet; the
global vectors are empty (`DoMount` is called once per process).  `j` and
`newVolume` are written before they are first read. -/
def initialState (buffer : String) (disks : List String) : MountState :=
  { diskHandlesCount := disks.length
    diskHandles := List.replicate disks.length VixDiskLibHandle.null
    childDisks := childDiskNames buffer disks.length
    localConnection := VixDiskLibConnection.indeterminate
    diskSetHandle := Ptr.null
    diskSetInfo := Ptr.null
    volumeHandles := Ptr.null
    numVolumes := 0
    j := 0
    newVolume := { volumeHandle := none, volInfo := none }
    mountedVolumes := []
    mountedDisks := [] }

/-- Lines 842-846. -/
def initPhase (w : World) (s : MountState) : Phase :=
  CHECK w.mntapiInit s s [Call.VixMntapi_Init]

/-- Lines 848-851: `localConnection` is initialised to `NULL`, then connected. -/
def connectPhase (w : World) (s : MountState) : Phase :=
  CHECK w.connectLocal
    { s with localConnection := VixDiskLibConnection.null }
    { s with localConnection := VixDiskLibConnection.localHost }
    [Call.VixDiskLib_Connect_local]

/-- Lines 856-872: one iteration of the provisioning loop, for `disks[i]`. -/
def provisionDisk (w : World) (i : Nat) (path : String) (s : MountState) : Phase :=
  (CHECK (w.openRemote i) s s [Call.VixDiskLib_Open_remote i path]).andThen fun s1 =>
  (CHECK (w.createChild i) s1 s1
    [Call.VixDiskLib_GetTransportMode i,
     Call.VixDiskLib_CreateChild i (s1.childDisks.getD i "")]).andThen fun s2 =>
  (CHECK (w.openChild i) s2 s2
    [Call.VixDiskLib_Open_child i (s2.childDisks.getD i "")]).andThen fun s3 =>
  CHECK (w.attach i) s3
    { s3 with diskHandles := s3.diskHandles.set i (VixDiskLibHandle.child i) }
    [Call.VixDiskLib_Attach i]

/-- Lines 853-873: the provisioning loop, at index `i` with `iter` left. -/
def provisionLoop (w : World) : Nat → List String → MountState → Phase
  | _, [], s => { exit := Exit.fallThrough, st := s, trace := [] }
  | i, path :: rest, s =>
    (provisionDisk w i path s).andThen (provisionLoop w (i + 1) rest)

/-- Lines 875-882. -/
def openDiskSetPhase (w : World) (s : MountState) : Phase :=
  CHECK w.openDiskSet s
    { s with diskSetHandle := Ptr.obtained
             mountedDisks := s.mountedDisks ++ [Ptr.obtained] }
    [Call.VixMntapi_OpenDiskSet s.diskHandles s.diskHandlesCount]

/-- Lines 884-889. -/
def diskSetInfoPhase (w : World) (s : MountState) : Phase :=
  CHECK w.getDiskSetInfo s { s with diskSetInfo := Ptr.obtained }
    [Call.VixMntapi_GetDiskSetInfo]

/-- Lines 891-899, including the `scanf` into `j`. -/
def volumeHandlesPhase (w : World) (s : MountState) : Phase :=
  CHECK w.getVolumeHandles s
    { s with volumeHandles := Ptr.obtained, numVolumes := w.numVolumes, j := w.startVolume }
    [Call.VixMntapi_GetVolumeHandles]

/-- The indices visited by `for (int i = j-1; i < numVolumes; ++i)` (lines 902
and 912).  The comparison converts `i` to `size_t`, so a negative `i` (that is
`j < 1`) compares above every volume count and the body never runs. -/
def volumeRange (j : Int) (numVolumes : Nat) : List Nat :=
  if 1 ≤ j then List.range' (j - 1).toNat (numVolumes - (j - 1).toNat) else []

/-- Lines 903-908: one iteration of the mount loop. -/
def mountVolumeStep (w : World) (v : Nat) (s : MountState) : Phase :=
  if w.mountVolume v = ERROR_MNTAPI_VOLUME_ALREADY_MOUNTED then
    { exit := Exit.fallThrough, st := s, trace := [Call.VixMntapi_MountVolume v] }
  else CHECK (w.mountVolume v) s s [Call.VixMntapi_MountVolume v]

/-- Lines 902-909. -/
def mountLoop (w : World) : List Nat → MountState → Phase
  | [], s => { exit := Exit.fallThrough, st := s, trace := [] }
  | v :: vs, s => (mountVolumeStep w v s).andThen (mountLoop w vs)

/-- Lines 955-965: `FindNextFileW` is called until it fails, then `FindClose`. -/
def findLoop (w : World) (v : Nat) : List Call :=
  if w.findFirst v then
    List.replicate (w.findNextCount v + 1) Call.FindNextFileW ++ [Call.FindClose]
  else []

/-- Lines 934-972: the host alias `T:` for volume `v`. -/
def hostExposure (w : World) (v : Nat) (sVolumeName : String) : List Call :=
  if w.defineDosDevice v then
    Call.DefineDosDeviceW_define sVolumeName :: Call.CreateFileW ::
      (if w.createFile v then
        Call.FindFirstFileW :: findLoop w v ++
          [Call.MessageBoxW, Call.DefineDosDeviceW_remove sVolumeName]
       else [])
  else [Call.DefineDosDeviceW_define sVolumeName]

/-- Lines 913-972: one iteration of the describe loop.  `newVolume` is pushed
(line 922) before its handle is set (line 926).  The asserts of lines 924-925
hold: a fetched handle and a fetched info are not null. -/
def describeVolume (w : World) (v : Nat) (s : MountState) : Phase :=
  (CHECK (w.getVolumeInfo v) s
    { s with
      newVolume := { volumeHandle := some v, volInfo := some v }
      mountedVolumes := s.mountedVolumes ++
        [{ volumeHandle := s.newVolume.volumeHandle, volInfo := some v }] }
    [Call.VixMntapi_GetVolumeInfo v]).andThen fun s1 =>
  match deviceName (w.symbolicLink v) with
  | none => { exit := Exit.raised, st := s1, trace := [] }
  | some sVolumeName =>
    { exit := Exit.fallThrough, st := s1, trace := hostExposure w v sVolumeName }

/-- Lines 912-973. -/
def describeLoop (w : World) : List Nat → MountState → Phase
  | [], s => { exit := Exit.fallThrough, st := s, trace := [] }
  | v :: vs, s => (describeVolume w v s).andThen (describeLoop w vs)

/-- Lines 901-909. -/
def mountPhase (w : World) (s : MountState) : Phase :=
  mountLoop w (volumeRange s.j s.numVolumes) s

/-- Lines 911-973. -/
def describePhase (w : World) (s : MountState) : Phase :=
  describeLoop w (volumeRange s.j s.numVolumes)
    { s with newVolume := { volumeHandle := none, volInfo := none } }

/-- Lines 842-979: everything before the `cleanup` label.  The test of line
975 only prints. -/
def acquire (w : World) (disks : List String) (s0 : MountState) : Phase :=
  (initPhase w s0)
    |>.andThen (connectPhase w)
    |>.andThen (provisionLoop w 0 disks)
    |>.andThen (openDiskSetPhase w)
    |>.andThen (diskSetInfoPhase w)
    |>.andThen (volumeHandlesPhase w)
    |>.andThen (mountPhase w)
    |>.andThen (describePhase w)

/-! ## Teardown (lines 787-804 and 981-999) -/

/-- Lines 787-794. -/
def UnmountDisks : List Ptr → List Call
  | [] => []
  | h :: rest => Call.VixMntapi_CloseDiskSet h :: UnmountDisks rest

/-- Lines 796-804. -/
def UnmountVolumes : List MountedVolume → List Call
  | [] => []
  | mv :: rest =>
    Call.VixMntapi_FreeVolumeInfo mv.volInfo ::
      Call.VixMntapi_DismountVolume mv.volumeHandle :: UnmountVolumes rest

/-- Lines 992-996: `n` iterations left, the counter at `j`. -/
def closeLoop (s : MountState) : Nat → Nat → List Call
  | 0, _ => []
  | n + 1, j =>
    Call.VixDiskLib_Close (s.diskHandles.getD j VixDiskLibHandle.null) ::
      Call.VixDiskLib_Unlink s.localConnection (s.childDisks.getD j "") ::
      Call.DeleteFileA (s.childDisks.getD j "") :: closeLoop s n (j + 1)

/-- Lines 981-999: the cleanup block. -/
def cleanup (s : MountState) : List Call :=
  Call.printf_CleanupStuff :: Call.VixMntapi_FreeDiskSetInfo s.diskSetInfo ::
    ((if s.volumeHandles = Ptr.null then [] else [Call.VixMntapi_FreeVolumeHandles]) ++
      UnmountVolumes s.mountedVolumes ++
      UnmountDisks s.mountedDisks ++
      closeLoop s s.diskHandlesCount 0 ++
      [Call.VixDiskLib_Disconnect s.localConnection, Call.VixMntapi_Exit])

/-- One run of the teardown sequence: the calls of the cleanup block and the
state it leaves.  The only variable it writes is the loop counter `j`. -/
def Teardown (s : MountState) : MountState × List Call :=
  ({ s with j := (s.diskHandlesCount : Int) }, cleanup s)

/-! ## `DoMount` and `main` -/

/-- One call of `DoMount`: how the part before `cleanup` ended, whether the
function returned, the final state and all calls issued. -/
structure MountRun where
  exit : Exit
  returned : Bool
  st : MountState
  trace : List Call

/-- Lines 806-1000.  A null `vmxSpec` is passed to `strdup` and `strtok`
(line 828), which is undefined; it is modelled as leaving the function
abnormally before any call.  An exception skips the cleanup block. -/
def DoMount (g : AppGlobals) (w : World) (disks : List String) : MountRun :=
  match g.vmxSpec with
  | none =>
    { exit := Exit.raised, returned := false
      st := initialState w.bufferGarbage disks, trace := [] }
  | some spec =>
    let p := acquire w disks (initialState (vmIdentifier w.bufferGarbage spec) disks)
    match p.exit with
    | Exit.raised => { exit := Exit.raised, returned := false, st := p.st, trace := p.trace }
    | e =>
      let t := Teardown p.st
      { exit := e, returned := true, st := t.1, trace := p.trace ++ t.2 }

/-- The result of `main`: the exit status (`none` when the process was
terminated by an exception nobody catches) and the calls issued. -/
structure MainRun where
  retval : Option Int
  trace : List Call

/-- Lines 405-414: the epilogue of `main`. -/
def mainEpilogue (g : AppGlobals) (connection : VixDiskLibConnection) (bVixInit : Bool) :
    List Call :=
  (if g.vmxSpec.isSome then [Call.VixDiskLib_EndAccess] else []) ++
  (if connection = VixDiskLibConnection.null then []
   else [Call.VixDiskLib_Disconnect connection]) ++
  (if bVixInit then [Call.VixDiskLib_Exit] else [])

/-- Lines 332-415 of `main`, for a command line on which `ParseArguments`
returned 0 with the command `-mount`; `extraDisks` are the paths typed at the
prompt (lines 384-395).  `CHECK_AND_THROW` is caught by `main` (retval 1); an
exception out of `DoMount` is of another type and is not caught. -/
def mainMount (g : AppGlobals) (w : World) (extraDisks : List String) : MainRun :=
  let initCall := if g.useInitEx then Call.VixDiskLib_InitEx else Call.VixDiskLib_Init
  if VIX_FAILED w.diskLibInit then
    { retval := some 1
      trace := initCall :: mainEpilogue g VixDiskLibConnection.null false }
  else
    let prepare := if g.vmxSpec.isSome then [Call.VixDiskLib_PrepareForAccess] else []
    let connectCall :=
      if g.ssMoRef.isNone && g.transportModes.isNone then Call.VixDiskLib_Connect_remote
      else Call.VixDiskLib_ConnectEx
    if VIX_FAILED w.connectRemote then
      { retval := some 1
        trace := initCall :: prepare ++ connectCall ::
          mainEpilogue g VixDiskLibConnection.null true }
    else
      let r := DoMount g w (g.diskPath :: extraDisks)
      if r.returned then
        { retval := some 0
          trace := initCall :: prepare ++ connectCall :: r.trace ++
            mainEpilogue g VixDiskLibConnection.remoteHost true }
      else
        { retval := none, trace := initCall :: prepare ++ connectCall :: r.trace }

/-! ## Vocabulary of the properties -/

/-- The calls issued before the `cleanup` label: acquisitions and the host
exposure of a volume (which removes its own alias). -/
def Call.beforeCleanup : Call → Bool
  | Call.VixMntapi_Init => true
  | Call.VixDiskLib_Connect_local => true
  | Call.VixDiskLib_Open_remote _ _ => true
  | Call.VixDiskLib_GetTransportMode _ => true
  | Call.VixDiskLib_CreateChild _ _ => true
  | Call.VixDiskLib_Open_child _ _ => true
  | Call.VixDiskLib_Attach _ => true
  | Call.VixMntapi_OpenDiskSet _ _ => true
  | Call.VixMntapi_GetDiskSetInfo => true
  | Call.VixMntapi_GetVolumeHandles => true
  | Call.VixMntapi_MountVolume _ => true
  | Call.VixMntapi_GetVolumeInfo _ => true
  | Call.DefineDosDeviceW_define _ => true
  | Call.CreateFileW => true
  | Call.FindFirstFileW => true
  | Call.FindNextFileW => true
  | Call.FindClose => true
  | Call.MessageBoxW => true
  | Call.DefineDosDeviceW_remove _ => true
  | _ => false

/-- The layer of a release call in the order the specification gives:
0 host alias, 1 mounted volume, 2 disk set (with its info and its volume
handle list), 3 child disk, 4 session.  Other calls release nothing. -/
def specLayer : Call → Option Nat
  | Call.DefineDosDeviceW_remove _ => some 0
  | Call.VixMntapi_FreeVolumeInfo _ => some 1
  | Call.VixMntapi_DismountVolume _ => some 1
  | Call.VixMntapi_FreeDiskSetInfo _ => some 2
  | Call.VixMntapi_FreeVolumeHandles => some 2
  | Call.VixMntapi_CloseDiskSet _ => some 2
  | Call.VixDiskLib_Close _ => some 3
  | Call.VixDiskLib_Unlink _ _ => some 3
  | Call.DeleteFileA _ => some 3
  | Call.VixDiskLib_Disconnect _ => some 4
  | _ => none

/-- The layer of a release call in the order the code follows: 0 host alias,
1 disk-set info and volume handle list, 2 mounted volume, 3 disk set,
4 child disk, 5 session. -/
def codeLayer : Call → Option Nat
  | Call.DefineDosDeviceW_remove _ => some 0
  | Call.VixMntapi_FreeDiskSetInfo _ => some 1
  | Call.VixMntapi_FreeVolumeHandles => some 1
  | Call.VixMntapi_FreeVolumeInfo _ => some 2
  | Call.VixMntapi_DismountVolume _ => some 2
  | Call.VixMntapi_CloseDiskSet _ => some 3
  | Call.VixDiskLib_Close _ => some 4
  | Call.VixDiskLib_Unlink _ _ => some 4
  | Call.DeleteFileA _ => some 4
  | Call.VixDiskLib_Disconnect _ => some 5
  | _ => none

/-- The release calls of a run come in non-decreasing layer. -/
def InLayerOrder (layer : Call → Option Nat) (trace : List Call) : Prop :=
  List.Pairwise (fun a b => a ≤ b) (trace.filterMap layer)

/-- The device-name derivation does not throw on any volume the provider
reports: every symbolic link is present and has at least 4 characters. -/
def LinksWellFormed (w : World) : Prop :=
  ∀ v, v < w.numVolumes → ∃ link, w.symbolicLink v = some link ∧ 4 ≤ link.length

/-- A world in which every call succeeds: 3 volumes, start index 1. -/
def sampleWorld : World :=
  { diskLibInit := VIX_OK, connectRemote := VIX_OK, bufferGarbage := ""
    mntapiInit := VIX_OK, connectLocal := VIX_OK
    openRemote := fun _ => VIX_OK, createChild := fun _ => VIX_OK
    openChild := fun _ => VIX_OK, attach := fun _ => VIX_OK
    openDiskSet := VIX_OK, getDiskSetInfo := VIX_OK, getVolumeHandles := VIX_OK
    numVolumes := 3, startVolume := 1
    mountVolume := fun _ => VIX_OK, getVolumeInfo := fun _ => VIX_OK
    symbolicLink := fun _ => some "\\\\.\\vstor2-mntapi20-shared-0A\\"
    defineDosDevice := fun _ => true, createFile := fun _ => true
    findFirst := fun _ => true, findNextCount := fun _ => 1 }

/-- Globals of a mount command given `-vm moref=vm-12`. -/
def sampleGlobals : AppGlobals :=
  { vmxSpec := some "moref=vm-12", diskPath := "[ds] vm/vm.vmdk", useInitEx := false
    ssMoRef := none, transportModes := none }

/-- The disk index a provisioning call works on. -/
def Call.diskIndex : Call → Option Nat
  | Call.VixDiskLib_Open_remote i _ => some i
  | Call.VixDiskLib_GetTransportMode i => some i
  | Call.VixDiskLib_CreateChild i _ => some i
  | Call.VixDiskLib_Open_child i _ => some i
  | Call.VixDiskLib_Attach i => some i
  | _ => none

/-- All four provisioning steps of disk `k` succeed. -/
def DiskOk (w : World) (k : Nat) : Prop :=
  VIX_FAILED (w.openRemote k) = false ∧ VIX_FAILED (w.createChild k) = false ∧
    VIX_FAILED (w.openChild k) = false ∧ VIX_FAILED (w.attach k) = false

/-- Of `n` requested disks, provisioning is reached, succeeds for the disks
before index `i` and fails at one of the four steps of disk `i` (0-based). -/
def ProvisioningFailsAt (w : World) (n i : Nat) : Prop :=
  VIX_FAILED w.mntapiInit = false ∧ VIX_FAILED w.connectLocal = false ∧ i < n ∧
    (∀ k, k < i → DiskOk w k) ∧ ¬ DiskOk w i

/-- All `n` requested disks are provisioned. -/
def ProvisioningSucceeds (w : World) (n : Nat) : Prop :=
  VIX_FAILED w.mntapiInit = false ∧ VIX_FAILED w.connectLocal = false ∧
    ∀ k, k < n → DiskOk w k

/-- The child-disk files on local storage after the calls of a run, starting
from `files`: `VixDiskLib_CreateChild` is counted as leaving its file behind
(also when it reports a failure) and `DeleteFileA` as removing it. -/
def storageAfter : List Call → List String → List String
  | [], files => files
  | Call.VixDiskLib_CreateChild _ p :: rest, files => storageAfter rest (p :: files)
  | Call.DeleteFileA p :: rest, files => storageAfter rest (files.filter fun q => q ≠ p)
  | _ :: rest, files => storageAfter rest files

/-- Two disks requested; the attach of the second one fails. -/
def attachFailsWorld : World :=
  { sampleWorld with attach := fun k => if k = 1 then 1 else VIX_OK }

/-- One disk requested; `VixMntapi_OpenDiskSet` fails. -/
def openDiskSetFailsWorld : World :=
  { sampleWorld with openDiskSet := 1 }

/-- Everything before the mount loop succeeds for `n` requested disks. -/
def ReachesMountLoop (w : World) (n : Nat) : Prop :=
  ProvisioningSucceeds w n ∧ VIX_FAILED w.openDiskSet = false ∧
    VIX_FAILED w.getDiskSetInfo = false ∧ VIX_FAILED w.getVolumeHandles = false

/-- Mounting volume index `v` does not send `DoMount` to `cleanup`: the status
is the already-mounted one or is not a failure. -/
def MountOk (w : World) (v : Nat) : Prop :=
  w.mountVolume v = ERROR_MNTAPI_VOLUME_ALREADY_MOUNTED ∨ VIX_FAILED (w.mountVolume v) = false

/-- Mounting volume index `v` fails with a status other than already-mounted. -/
def MountFatal (w : World) (v : Nat) : Prop :=
  w.mountVolume v ≠ ERROR_MNTAPI_VOLUME_ALREADY_MOUNTED ∧ VIX_FAILED (w.mountVolume v) = true

/-- The 1-based number of the volume a call mounts. -/
def Call.mountedVolume : Call → Option Nat
  | Call.VixMntapi_MountVolume v => some (v + 1)
  | _ => none

/-- The 1-based number of the volume a call fetches the info of. -/
def Call.describedVolume : Call → Option Nat
  | Call.VixMntapi_GetVolumeInfo v => some (v + 1)
  | _ => none

/-- The 1-based numbers of the volumes `VixMntapi_MountVolume` was called on,
in call order. -/
def mountCalls (trace : List Call) : List Nat :=
  trace.filterMap Call.mountedVolume

/-- Two volumes, mounting starts at volume 1 and the first mount fails. -/
def mountFailsWorld : World :=
  { sampleWorld with
    numVolumes := 2, startVolume := 1, mountVolume := fun v => if v = 0 then 1 else VIX_OK }

/-- Opening the requested disk on the remote connection fails (status 4). -/
def openFailsWorld : World :=
  { sampleWorld with openRemote := fun _ => 4 }

/-- The local connect fails. -/
def connectFailsWorld : World :=
  { sampleWorld with connectLocal := 1 }

/-- The call `VixMntapi_Init` fails. -/
def initFailsWorld : World :=
  { sampleWorld with mntapiInit := 1 }

/-- The provider reports no symbolic link (`NULL`) for any volume. -/
def nullLinkWorld : World :=
  { sampleWorld with symbolicLink := fun _ => none }

/-- The provider reports a symbolic link of three characters for every volume. -/
def shortLinkWorld : World :=
  { sampleWorld with symbolicLink := fun _ => some "T:\\" }

/-- Opening the aliased volume with `CreateFileW` fails for every volume. -/
def createFileFailsWorld : World :=
  { sampleWorld with createFile := fun _ => false }

/-- The call defines the host alias `T:`. -/
def Call.isAliasDefine : Call → Bool
  | Call.DefineDosDeviceW_define _ => true
  | _ => false

/-- The call removes the host alias `T:`. -/
def Call.isAliasRemove : Call → Bool
  | Call.DefineDosDeviceW_remove _ => true
  | _ => false

/-- The value of a decimal digit character. -/
def digitValue (c : Char) : Nat := c.toNat - 48

/-- The number a decimal numeral denotes. -/
def decimalValue (cs : List Char) : Nat :=
  cs.foldl (fun acc c => acc * 10 + digitValue c) 0

/-! ## `BitCount` and `ParseArguments` (lines 418-613) -/

/-- Line 38. -/
def COMMAND_INFO : Nat := 1 <<< 0

/-- Line 39. -/
def COMMAND_DUMP_META : Nat := 1 <<< 1

/-- Line 40. -/
def COMMAND_READ_META : Nat := 1 <<< 2

/-- Line 41. -/
def COMMAND_WRITE_META : Nat := 1 <<< 3

/-- Line 42. -/
def COMMAND_MOUNT : Nat := 1 <<< 4

/-- Modelled from the spec: the flag `VIXDISKLIB_FLAG_OPEN_READ_ONLY` is
declared in `vixDiskLib.h`, which is not among the sources; it is one bit of
the open flags. -/
def VIXDISKLIB_FLAG_OPEN_READ_ONLY : Nat := 1 <<< 2

/-- Lines 438-441: the loop of `BitCount`, with `fuel` iterations allowed;
`none` when they do not suffice. -/
def BitCountLoop : Nat → Nat → Nat → Option Nat
  | 0, _, _ => none
  | fuel + 1, number, bits =>
    if number = 0 then some bits
    else BitCountLoop fuel (number &&& (number - 1)) (bits + 1)

/-- Lines 434-443, for a non-negative argument (`appGlobals.command` is never
negative).  Every iteration makes `number` smaller, so `number + 1`
iterations are allowed. -/
def BitCount (number : Nat) : Option Nat :=
  BitCountLoop (number + 1) number 0

/-- The number of bits set to 1, as the comment of `BitCount` words its
result: the sum of the binary digits. -/
def numberOfOneBits (n : Nat) : Nat :=
  (Nat.digits 2 n).sum

/-- Lines 266-296: `PrintUsage` prints the usage text and returns 1. -/
def PrintUsage : Int := 1

/-- The fields of `appGlobals` (lines 49-71) that `ParseArguments` writes. -/
structure ParseGlobals where
  command : Nat
  transportModes : Option String
  diskPath : Option String
  metaKey : Option String
  metaVal : Option String
  openFlags : Nat
  isRemote : Bool
  host : Option String
  userName : Option String
  password : Option String
  thumbPrint : Option String
  port : Int
  nfcHostPort : Int
  vmxSpec : Option String
  useInitEx : Bool
  cfgFile : Option String
  libdir : Option String
  ssMoRef : Option String
  deriving DecidableEq, Repr

/-- Lines 322-325 of `main`: `appGlobals` is zeroed before `ParseArguments`. -/
def zeroGlobals : ParseGlobals :=
  { command := 0, transportModes := none, diskPath := none, metaKey := none, metaVal := none
    openFlags := 0, isRemote := false, host := none, userName := none, password := none
    thumbPrint := none, port := 0, nfcHostPort := 0, vmxSpec := none, useInitEx := false
    cfgFile := none, libdir := none, ssMoRef := none }

/-- What one pass through the loop body does: `return PrintUsage()`, or go on
after taking `consumed` further arguments as values (each by `++i`). -/
inductive ParseStep where
  | usage (g : ParseGlobals)
  | next (consumed : Nat) (g : ParseGlobals)
  deriving DecidableEq, Repr

/-- The pattern of every option with one value: `if (i >= argc - 2) return
PrintUsage();` then the value `argv[++i]` is stored. -/
def oneValue (argc i : Nat) (g stored : ParseGlobals) : ParseStep :=
  if i ≥ argc - 2 then ParseStep.usage g else ParseStep.next 1 stored

/-- Lines 470-592: the body of the loop at index `i`, where `arg` is
`argv[i]` and `value`, `value2` are the two arguments after it.  `strtol` is
the C library conversion used for the two port options.  The loop is entered
with `argc ≥ 3` only, so `argc - 2` and `argc - 3` do not go below zero. -/
def parseArg (strtol : String → Int) (argc i : Nat) (g : ParseGlobals)
    (arg value value2 : String) : ParseStep :=
  if arg = "-info" then
    ParseStep.next 0 { g with command := g.command ||| COMMAND_INFO
                              openFlags := g.openFlags ||| VIXDISKLIB_FLAG_OPEN_READ_ONLY }
  else if arg = "-mount" then
    ParseStep.next 0 { g with command := g.command ||| COMMAND_MOUNT
                              openFlags := g.openFlags ||| VIXDISKLIB_FLAG_OPEN_READ_ONLY }
  else if arg = "-meta" then
    ParseStep.next 0 { g with command := g.command ||| COMMAND_DUMP_META
                              openFlags := g.openFlags ||| VIXDISKLIB_FLAG_OPEN_READ_ONLY }
  else if arg = "-rmeta" then
    oneValue argc i { g with command := g.command ||| COMMAND_READ_META }
      { g with command := g.command ||| COMMAND_READ_META
               metaKey := some value
               openFlags := g.openFlags ||| VIXDISKLIB_FLAG_OPEN_READ_ONLY }
  else if arg = "-wmeta" then
    if i ≥ argc - 3 then ParseStep.usage { g with command := g.command ||| COMMAND_WRITE_META }
    else ParseStep.next 2 { g with command := g.command ||| COMMAND_WRITE_META
                                   metaKey := some value
                                   metaVal := some value2 }
  else if arg = "-host" then
    oneValue argc i g { g with host := some value, isRemote := true }
  else if arg = "-user" then
    oneValue argc i g { g with userName := some value, isRemote := true }
  else if arg = "-password" then
    oneValue argc i g { g with password := some value, isRemote := true }
  else if arg = "-thumb" then
    oneValue argc i g { g with thumbPrint := some value, isRemote := true }
  else if arg = "-port" then
    oneValue argc i g { g with port := strtol value, isRemote := true }
  else if arg = "-nfchostport" then
    oneValue argc i g { g with nfcHostPort := strtol value, isRemote := true }
  else if arg = "-vm" then
    oneValue argc i g { g with vmxSpec := some value, isRemote := true }
  else if arg = "-libdir" then
    oneValue argc i g { g with libdir := some value }
  else if arg = "-initex" then
    oneValue argc i g
      { g with useInitEx := true, cfgFile := if value = "" then none else some value }
  else if arg = "-ssmoref" then
    oneValue argc i g { g with ssMoRef := some value }
  else if arg = "-mode" then
    oneValue argc i g { g with transportModes := some value }
  else ParseStep.usage g

/-- The body of the loop at index `i` of `argv`. -/
def parseOption (strtol : String → Int) (argv : List String) (argc i : Nat)
    (g : ParseGlobals) : ParseStep :=
  parseArg strtol argc i g (argv.getD i "") (argv.getD (i + 1) "") (argv.getD (i + 2) "")

/-- How the scan of the arguments ends: the loop condition fails, the body
returns `PrintUsage()`, or the allowed iterations do not suffice. -/
inductive ScanExit where
  | ended
  | usage
  | outOfFuel
  deriving DecidableEq, Repr

/-- The scan from some index on: how it ended, the index `i` and `appGlobals`
then, and what `i` did on the way: the values it took after the starting one
(`indices`), the positions read as option names (`options`, line 470 and the
following `strcmp`s) and those read as option values (`values`, the
`argv[++i]`).  Every `argv` access of the loop is at one of these positions. -/
structure Scan where
  exit : ScanExit
  i : Nat
  globals : ParseGlobals
  indices : List Nat
  options : List Nat
  values : List Nat
  deriving DecidableEq, Repr

/-- Lines 469-593: `for (...; i < argc - 1; i++)` from index `i` on, with
`fuel` iterations allowed. -/
def scanLoop (strtol : String → Int) (argv : List String) (argc : Nat) :
    Nat → Nat → ParseGlobals → Scan
  | 0, i, g =>
    { exit := ScanExit.outOfFuel, i := i, globals := g, indices := [], options := [],
      values := [] }
  | fuel + 1, i, g =>
    if i < argc - 1 then
      match parseOption strtol argv argc i g with
      | ParseStep.usage g1 =>
        { exit := ScanExit.usage, i := i, globals := g1, indices := [], options := [i],
          values := [] }
      | ParseStep.next consumed g1 =>
        let r := scanLoop strtol argv argc fuel (i + consumed + 1) g1
        { exit := r.exit, i := r.i, globals := r.globals
          indices := List.range' (i + 1) (consumed + 1) ++ r.indices
          options := i :: r.options
          values := List.range' (i + 1) consumed ++ r.values }
    else
      { exit := ScanExit.ended, i := i, globals := g, indices := [], options := [],
        values := [] }

/-- The result of `ParseArguments`: the value returned, `appGlobals` then, and
the scan (`none` when the function returns before the loop). -/
structure ParseRun where
  retval : Int
  globals : ParseGlobals
  scan : Option Scan
  deriving DecidableEq, Repr

/-- Lines 596-612: the checks on `appGlobals` after the scan `s`. -/
def checkGlobals (s : Scan) (g : ParseGlobals) : ParseRun :=
  if BitCount g.command ≠ some 1 then { retval := PrintUsage, globals := g, scan := some s }
  else if g.isRemote && (g.host.isNone || g.userName.isNone || g.password.isNone) then
    { retval := PrintUsage, globals := g, scan := some s }
  else { retval := 0, globals := g, scan := some s }

/-- Lines 469-612 once the scan `s` is over: a `return PrintUsage()` of the
loop body is the result; otherwise `diskPath = argv[i]` (line 594) and the
checks. -/
def afterScan (argv : List String) (s : Scan) : ParseRun :=
  match s.exit with
  | ScanExit.ended => checkGlobals s { s.globals with diskPath := some (argv.getD s.i "") }
  | _ => { retval := PrintUsage, globals := s.globals, scan := some s }

/-- Lines 461-613, on `argv` with `argc = argv.length`, called once from
`main` on the zeroed `appGlobals`.  The index `i` grows in every iteration,
so `argc` iterations are allowed. -/
def ParseArguments (strtol : String → Int) (argv : List String) : ParseRun :=
  if argv.length < 3 then { retval := PrintUsage, globals := zeroGlobals, scan := none }
  else afterScan argv (scanLoop strtol argv argv.length argv.length 1 zeroGlobals)

/-- The command an argument names, if any (the list of `PrintUsage`, lines
271-276). -/
def commandBit (arg : String) : Option Nat :=
  if arg = "-info" then some COMMAND_INFO
  else if arg = "-wmeta" then some COMMAND_WRITE_META
  else if arg = "-rmeta" then some COMMAND_READ_META
  else if arg = "-meta" then some COMMAND_DUMP_META
  else if arg = "-mount" then some COMMAND_MOUNT
  else none

/-- The five command bits. -/
def commandBits : List Nat :=
  [COMMAND_INFO, COMMAND_DUMP_META, COMMAND_READ_META, COMMAND_WRITE_META, COMMAND_MOUNT]

/-- The commands given on the command line: the command bits of the arguments
that the scan read as option names, in order. -/
def commandsGiven (argv : List String) (s : Scan) : List Nat :=
  s.options.filterMap fun k => commandBit (argv.getD k "")

/-- The positions of `argv` read up to the return of `ParseArguments`: those
of the scan, and `argv[i]` of line 594 when the loop ended. -/
def Scan.accesses (s : Scan) : List Nat :=
  s.options ++ s.values ++ (if s.exit = ScanExit.ended then [s.i] else [])

/-- The conversion `strtol(text, NULL, 0)` on the port numbers used in the
examples. -/
def sampleStrtol (text : String) : Int :=
  if text = "443" then 443 else if text = "902" then 902 else 0

/-- A mount command line. -/
def mountArgv : List String :=
  ["vixMntApiSample.exe", "-mount", "-host", "esx1", "-user", "root", "-password", "secret",
   "-vm", "moref=vm-12", "[ds] vm/vm.vmdk"]

/-- The `appGlobals` a pass through the loop body leaves. -/
def ParseStep.globals : ParseStep → ParseGlobals
  | ParseStep.usage g => g
  | ParseStep.next _ g => g

/-- The command word after or-ing in the command an argument names. -/
def withCommand (command : Nat) (arg : String) : Nat :=
  match commandBit arg with
  | some b => command ||| b
  | none => command

/-! ## Structure of a run -/

theorem andThen_all (P : Call → Prop) (p : Phase) (f : MountState → Phase)
    (hp : ∀ c ∈ p.trace, P c) (hf : ∀ s, ∀ c ∈ (f s).trace, P c) :
    ∀ c ∈ (p.andThen f).trace, P c := by
  intro c hc
  unfold Phase.andThen at hc
  split at hc
  · simp only [List.mem_append] at hc
    rcases hc with h | h
    · exact hp c h
    · exact hf _ c h
  · exact hp c hc

theorem CHECK_all (P : Call → Prop) (err : VixError) (s ok : MountState) (calls : List Call)
    (h : ∀ c ∈ calls, P c) : ∀ c ∈ (CHECK err s ok calls).trace, P c := by
  intro c hc
  unfold CHECK at hc
  split at hc <;> exact h c hc

theorem andThen_noRaise (p : Phase) (f : MountState → Phase)
    (hp : p.exit ≠ Exit.raised) (hf : (f p.st).exit ≠ Exit.raised) :
    (p.andThen f).exit ≠ Exit.raised := by
  unfold Phase.andThen
  split
  · exact hf
  · exact hp

theorem CHECK_noRaise (err : VixError) (s ok : MountState) (calls : List Call) :
    (CHECK err s ok calls).exit ≠ Exit.raised := by
  unfold CHECK
  split <;> simp

theorem provisionDisk_before (w : World) (i : Nat) (path : String) (s : MountState) :
    ∀ c ∈ (provisionDisk w i path s).trace, c.beforeCleanup = true := by
  unfold provisionDisk
  refine andThen_all _ _ _ (CHECK_all _ _ _ _ _ ?_) fun s1 => ?_
  · simp [Call.beforeCleanup]
  refine andThen_all _ _ _ (CHECK_all _ _ _ _ _ ?_) fun s2 => ?_
  · simp [Call.beforeCleanup]
  refine andThen_all _ _ _ (CHECK_all _ _ _ _ _ ?_) fun s3 => ?_
  · simp [Call.beforeCleanup]
  exact CHECK_all _ _ _ _ _ (by simp [Call.beforeCleanup])

theorem provisionLoop_before (w : World) (iter : List String) :
    ∀ (i : Nat) (s : MountState), ∀ c ∈ (provisionLoop w i iter s).trace,
      c.beforeCleanup = true := by
  induction iter with
  | nil => intro i s c hc; simp [provisionLoop] at hc
  | cons path rest ih =>
    intro i s
    unfold provisionLoop
    exact andThen_all _ _ _ (provisionDisk_before w i path s) fun s1 => ih (i + 1) s1

theorem mountLoop_before (w : World) (vs : List Nat) :
    ∀ (s : MountState), ∀ c ∈ (mountLoop w vs s).trace, c.beforeCleanup = true := by
  induction vs with
  | nil => intro s c hc; simp [mountLoop] at hc
  | cons v rest ih =>
    intro s
    unfold mountLoop
    refine andThen_all _ _ _ ?_ fun s1 => ih s1
    unfold mountVolumeStep
    split
    · simp [Call.beforeCleanup]
    · exact CHECK_all _ _ _ _ _ (by simp [Call.beforeCleanup])

theorem hostExposure_before (w : World) (v : Nat) (name : String) :
    ∀ c ∈ hostExposure w v name, c.beforeCleanup = true := by
  intro c hc
  unfold hostExposure findLoop at hc
  split at hc
  · split at hc
    · split at hc
      · simp only [List.mem_cons, List.mem_append, List.mem_replicate, List.mem_singleton,
          List.not_mem_nil, or_false] at hc
        casesm* _ ∨ _, _ ∧ _ <;> subst_vars <;> rfl
      · simp only [List.mem_cons, List.mem_append, List.mem_singleton,
          List.not_mem_nil, or_false, false_or] at hc
        casesm* _ ∨ _, _ ∧ _ <;> subst_vars <;> rfl
    · simp only [List.mem_cons, List.not_mem_nil, or_false] at hc
      casesm* _ ∨ _, _ ∧ _ <;> subst_vars <;> rfl
  · simp only [List.mem_singleton] at hc
    subst hc; rfl

theorem describeVolume_before (w : World) (v : Nat) (s : MountState) :
    ∀ c ∈ (describeVolume w v s).trace, c.beforeCleanup = true := by
  unfold describeVolume
  refine andThen_all _ _ _ (CHECK_all _ _ _ _ _ (by simp [Call.beforeCleanup])) fun s1 => ?_
  split
  · simp
  · exact hostExposure_before w v _

theorem describeLoop_before (w : World) (vs : List Nat) :
    ∀ (s : MountState), ∀ c ∈ (describeLoop w vs s).trace, c.beforeCleanup = true := by
  induction vs with
  | nil => intro s c hc; simp [describeLoop] at hc
  | cons v rest ih =>
    intro s
    unfold describeLoop
    exact andThen_all _ _ _ (describeVolume_before w v s) fun s1 => ih s1

theorem acquire_before (w : World) (disks : List String) (s0 : MountState) :
    ∀ c ∈ (acquire w disks s0).trace, c.beforeCleanup = true := by
  unfold acquire
  refine andThen_all _ _ _ ?_ fun s => describeLoop_before w _ _
  refine andThen_all _ _ _ ?_ fun s => mountLoop_before w _ _
  refine andThen_all _ _ _ ?_ fun s => CHECK_all _ _ _ _ _ (by simp [Call.beforeCleanup])
  refine andThen_all _ _ _ ?_ fun s => CHECK_all _ _ _ _ _ (by simp [Call.beforeCleanup])
  refine andThen_all _ _ _ ?_ fun s => CHECK_all _ _ _ _ _ (by simp [Call.beforeCleanup])
  refine andThen_all _ _ _ ?_ fun s => provisionLoop_before w _ _ _
  refine andThen_all _ _ _ ?_ fun s => CHECK_all _ _ _ _ _ (by simp [Call.beforeCleanup])
  exact CHECK_all _ _ _ _ _ (by simp [Call.beforeCleanup])

theorem andThen_st (I : MountState → Prop) (p : Phase) (f : MountState → Phase)
    (hp : I p.st) (hf : ∀ s, I s → I (f s).st) : I (p.andThen f).st := by
  unfold Phase.andThen
  split
  · exact hf _ hp
  · exact hp

theorem CHECK_st (I : MountState → Prop) (err : VixError) (s ok : MountState)
    (calls : List Call) (hs : I s) (hok : I ok) : I (CHECK err s ok calls).st := by
  unfold CHECK
  split
  · exact hs
  · exact hok

theorem provisionDisk_numVolumes (w : World) (i : Nat) (path : String) (s : MountState) :
    (provisionDisk w i path s).st.numVolumes = s.numVolumes := by
  unfold provisionDisk
  refine andThen_st (fun t => t.numVolumes = s.numVolumes) _ _
    (CHECK_st (fun t => t.numVolumes = s.numVolumes) _ _ _ _ rfl rfl) fun s1 h1 => ?_
  refine andThen_st (fun t => t.numVolumes = s.numVolumes) _ _
    (CHECK_st (fun t => t.numVolumes = s.numVolumes) _ _ _ _ h1 h1) fun s2 h2 => ?_
  refine andThen_st (fun t => t.numVolumes = s.numVolumes) _ _
    (CHECK_st (fun t => t.numVolumes = s.numVolumes) _ _ _ _ h2 h2) fun s3 h3 => ?_
  exact CHECK_st (fun t => t.numVolumes = s.numVolumes) _ _ _ _ h3 h3

theorem provisionLoop_numVolumes (w : World) (iter : List String) :
    ∀ (i : Nat) (s : MountState), (provisionLoop w i iter s).st.numVolumes = s.numVolumes := by
  induction iter with
  | nil => intro i s; rfl
  | cons path rest ih =>
    intro i s
    unfold provisionLoop
    exact andThen_st (fun t => t.numVolumes = s.numVolumes) _ _
      (provisionDisk_numVolumes w i path s) fun s1 h1 => (ih (i + 1) s1).trans h1

theorem mountLoop_st (w : World) (vs : List Nat) :
    ∀ (s : MountState), (mountLoop w vs s).st = s := by
  induction vs with
  | nil => intro s; rfl
  | cons v rest ih =>
    intro s
    unfold mountLoop
    refine andThen_st (fun t => t = s) _ _ ?_ fun s1 h1 => (ih s1).trans h1
    unfold mountVolumeStep
    split
    · rfl
    · exact CHECK_st (fun t => t = s) _ _ _ _ rfl rfl

theorem provisionDisk_noRaise (w : World) (i : Nat) (path : String) (s : MountState) :
    (provisionDisk w i path s).exit ≠ Exit.raised := by
  unfold provisionDisk
  refine andThen_noRaise _ _ (CHECK_noRaise _ _ _ _) ?_
  refine andThen_noRaise _ _ (CHECK_noRaise _ _ _ _) ?_
  refine andThen_noRaise _ _ (CHECK_noRaise _ _ _ _) ?_
  exact CHECK_noRaise _ _ _ _

theorem provisionLoop_noRaise (w : World) (iter : List String) :
    ∀ (i : Nat) (s : MountState), (provisionLoop w i iter s).exit ≠ Exit.raised := by
  induction iter with
  | nil => intro i s; simp [provisionLoop]
  | cons path rest ih =>
    intro i s
    unfold provisionLoop
    exact andThen_noRaise _ _ (provisionDisk_noRaise w i path s) (ih _ _)

theorem mountLoop_noRaise (w : World) (vs : List Nat) :
    ∀ (s : MountState), (mountLoop w vs s).exit ≠ Exit.raised := by
  induction vs with
  | nil => intro s; simp [mountLoop]
  | cons v rest ih =>
    intro s
    unfold mountLoop
    refine andThen_noRaise _ _ ?_ (ih _)
    unfold mountVolumeStep
    split
    · simp
    · exact CHECK_noRaise _ _ _ _

theorem lengthMinusOne_le (s : List Char) (h : 1 ≤ s.length) :
    lengthMinusOne s ≤ s.length := by
  unfold lengthMinusOne
  omega

theorem deviceName_some (link : String) (s t : List Char) (h3 : substr link.data 3 = some s)
    (he : erase s (lengthMinusOne s) = some t) :
    deviceName (some link) = some ("\\Device" ++ String.mk t) := by
  show (substr link.data 3).bind _ = _
  rw [h3, Option.some_bind, he, Option.map_some']

theorem deviceName_isSome (link : String) (h : 4 ≤ link.length) :
    (deviceName (some link)).isSome = true := by
  have hl : 4 ≤ link.data.length := h
  have h3 : substr link.data 3 = some (link.data.drop 3) := by
    unfold substr
    exact if_pos (by omega)
  have hd : 1 ≤ (link.data.drop 3).length := by
    rw [List.length_drop]; omega
  have he : erase (link.data.drop 3) (lengthMinusOne (link.data.drop 3)) =
      some ((link.data.drop 3).take (lengthMinusOne (link.data.drop 3))) := by
    unfold erase
    exact if_pos (lengthMinusOne_le _ hd)
  rw [deviceName_some link _ _ h3 he]
  rfl

theorem describeVolume_noRaise (w : World) (v : Nat) (s : MountState)
    (h : (deviceName (w.symbolicLink v)).isSome = true) :
    (describeVolume w v s).exit ≠ Exit.raised := by
  unfold describeVolume
  refine andThen_noRaise _ _ (CHECK_noRaise _ _ _ _) ?_
  cases hd : deviceName (w.symbolicLink v) with
  | none => rw [hd] at h; simp at h
  | some name => simp

theorem describeLoop_noRaise (w : World) (vs : List Nat)
    (h : ∀ v ∈ vs, (deviceName (w.symbolicLink v)).isSome = true) :
    ∀ (s : MountState), (describeLoop w vs s).exit ≠ Exit.raised := by
  induction vs with
  | nil => intro s; simp [describeLoop]
  | cons v rest ih =>
    intro s
    unfold describeLoop
    exact andThen_noRaise _ _
      (describeVolume_noRaise w v s (h v (List.mem_cons_self _ _)))
      (ih (fun u hu => h u (List.mem_cons_of_mem _ hu)) _)

theorem mem_volumeRange (j : Int) (n v : Nat) (h : v ∈ volumeRange j n) : v < n := by
  unfold volumeRange at h
  split at h
  · rw [List.mem_range'_1] at h
    omega
  · simp at h

theorem acquire_numVolumes_le (w : World) (disks : List String) (s0 : MountState)
    (h0 : s0.numVolumes ≤ w.numVolumes) :
    (((((((initPhase w s0).andThen (connectPhase w)).andThen (provisionLoop w 0 disks)).andThen
      (openDiskSetPhase w)).andThen (diskSetInfoPhase w)).andThen
      (volumeHandlesPhase w)).andThen (mountPhase w)).st.numVolumes ≤ w.numVolumes := by
  refine andThen_st (fun t => t.numVolumes ≤ w.numVolumes) _ _ ?_
    fun s h => by
      show (mountPhase w s).st.numVolumes ≤ w.numVolumes
      unfold mountPhase; rw [mountLoop_st]; exact h
  refine andThen_st (fun t => t.numVolumes ≤ w.numVolumes) _ _ ?_
    fun s h => CHECK_st (fun t => t.numVolumes ≤ w.numVolumes) _ _ _ _ h (le_refl _)
  refine andThen_st (fun t => t.numVolumes ≤ w.numVolumes) _ _ ?_
    fun s h => CHECK_st (fun t => t.numVolumes ≤ w.numVolumes) _ _ _ _ h h
  refine andThen_st (fun t => t.numVolumes ≤ w.numVolumes) _ _ ?_
    fun s h => CHECK_st (fun t => t.numVolumes ≤ w.numVolumes) _ _ _ _ h h
  refine andThen_st (fun t => t.numVolumes ≤ w.numVolumes) _ _ ?_
    fun s h => by
      show (provisionLoop w 0 disks s).st.numVolumes ≤ w.numVolumes
      rw [provisionLoop_numVolumes]; exact h
  refine andThen_st (fun t => t.numVolumes ≤ w.numVolumes) _ _ ?_
    fun s h => CHECK_st (fun t => t.numVolumes ≤ w.numVolumes) _ _ _ _ h h
  exact CHECK_st (fun t => t.numVolumes ≤ w.numVolumes) _ _ _ _ h0 h0

theorem acquire_noRaise (w : World) (disks : List String) (s0 : MountState)
    (h0 : s0.numVolumes ≤ w.numVolumes) (hl : LinksWellFormed w) :
    (acquire w disks s0).exit ≠ Exit.raised := by
  unfold acquire
  refine andThen_noRaise _ _ ?_ ?_
  · refine andThen_noRaise _ _ ?_ (mountLoop_noRaise w _ _)
    refine andThen_noRaise _ _ ?_ (CHECK_noRaise _ _ _ _)
    refine andThen_noRaise _ _ ?_ (CHECK_noRaise _ _ _ _)
    refine andThen_noRaise _ _ ?_ (CHECK_noRaise _ _ _ _)
    refine andThen_noRaise _ _ ?_ (provisionLoop_noRaise w _ _ _)
    refine andThen_noRaise _ _ ?_ (CHECK_noRaise _ _ _ _)
    exact CHECK_noRaise _ _ _ _
  · have hn := acquire_numVolumes_le w disks s0 h0
    unfold describePhase
    refine describeLoop_noRaise w _ (fun v hv => ?_) _
    have hv2 := mem_volumeRange _ _ _ hv
    rcases hl v (lt_of_lt_of_le hv2 hn) with ⟨link, e, h4⟩
    rw [e]
    exact deviceName_isSome link h4

theorem before_codeLayer (c : Call) (h : c.beforeCleanup = true) (k : Nat)
    (hk : codeLayer c = some k) : k = 0 := by
  cases c <;> simp_all [Call.beforeCleanup, codeLayer]

theorem codeLayer_le (c : Call) (k : Nat) (hk : codeLayer c = some k) : k ≤ 5 := by
  cases c <;> simp_all [codeLayer] <;> omega

theorem layers_before (l : List Call) (h : ∀ c ∈ l, c.beforeCleanup = true) :
    ∀ x ∈ l.filterMap codeLayer, x = 0 := by
  intro x hx
  rcases List.mem_filterMap.1 hx with ⟨c, hc, hcx⟩
  exact before_codeLayer c (h c hc) x hcx

theorem seg_sorted (k k2 : Nat) (seg rest : List Nat) (hk : k ≤ k2)
    (hseg : ∀ x ∈ seg, x = k2) (h1 : rest.Pairwise (fun a b => a ≤ b))
    (h2 : ∀ x ∈ rest, k2 ≤ x) :
    (seg ++ rest).Pairwise (fun a b => a ≤ b) ∧ ∀ x ∈ seg ++ rest, k ≤ x := by
  refine ⟨List.pairwise_append.2 ⟨?_, h1, ?_⟩, ?_⟩
  · induction seg with
    | nil => exact List.Pairwise.nil
    | cons a t ih =>
      refine List.pairwise_cons.2 ⟨fun b hb => ?_, ih fun x hx => hseg x (List.mem_cons_of_mem _ hx)⟩
      rw [hseg a (List.mem_cons_self _ _), hseg b (List.mem_cons_of_mem _ hb)]
  · intro a ha b hb
    rw [hseg a ha]; exact h2 b hb
  · intro x hx
    rcases List.mem_append.1 hx with h | h
    · rw [hseg x h]; exact hk
    · exact le_trans hk (h2 x h)

theorem UnmountVolumes_layers (l : List MountedVolume) :
    ∀ x ∈ (UnmountVolumes l).filterMap codeLayer, x = 2 := by
  induction l with
  | nil => simp [UnmountVolumes]
  | cons mv rest ih =>
    intro x hx
    simp only [UnmountVolumes, List.filterMap_cons, codeLayer, List.mem_cons] at hx
    rcases hx with h | h | h
    · exact h
    · exact h
    · exact ih x h

theorem UnmountDisks_layers (l : List Ptr) :
    ∀ x ∈ (UnmountDisks l).filterMap codeLayer, x = 3 := by
  induction l with
  | nil => simp [UnmountDisks]
  | cons mv rest ih =>
    intro x hx
    simp only [UnmountDisks, List.filterMap_cons, codeLayer, List.mem_cons] at hx
    rcases hx with h | h
    · exact h
    · exact ih x h

theorem closeLoop_layers (s : MountState) (n : Nat) :
    ∀ (j : Nat), ∀ x ∈ (closeLoop s n j).filterMap codeLayer, x = 4 := by
  induction n with
  | zero => intro j; simp [closeLoop]
  | succ n ih =>
    intro j x hx
    simp only [closeLoop, List.filterMap_cons, codeLayer, List.mem_cons] at hx
    rcases hx with h | h | h | h
    · exact h
    · exact h
    · exact h
    · exact ih (j + 1) x h

theorem cleanup_layers (s : MountState) :
    ((cleanup s).filterMap codeLayer).Pairwise (fun a b => a ≤ b) ∧
      ∀ x ∈ (cleanup s).filterMap codeLayer, 0 ≤ x := by
  have e : (cleanup s).filterMap codeLayer =
      (1 :: (if s.volumeHandles = Ptr.null then [] else [1])) ++
        ((UnmountVolumes s.mountedVolumes).filterMap codeLayer ++
          ((UnmountDisks s.mountedDisks).filterMap codeLayer ++
            ((closeLoop s s.diskHandlesCount 0).filterMap codeLayer ++ ([5] ++ [])))) := by
    unfold cleanup
    split <;> simp [List.filterMap_cons, List.filterMap_append, codeLayer]
  rw [e]
  have h5 := seg_sorted 4 5 [5] [] (by omega) (by simp) List.Pairwise.nil (by simp)
  have h4 := seg_sorted 3 4 _ _ (by omega) (closeLoop_layers s s.diskHandlesCount 0) h5.1 h5.2
  have h3 := seg_sorted 2 3 _ _ (by omega) (UnmountDisks_layers s.mountedDisks) h4.1 h4.2
  have h2 := seg_sorted 1 2 _ _ (by omega) (UnmountVolumes_layers s.mountedVolumes) h3.1 h3.2
  refine seg_sorted 0 1 _ _ (by omega) ?_ h2.1 h2.2
  intro x hx
  split at hx <;> simp at hx <;> exact hx

theorem DoMount_none (g : AppGlobals) (w : World) (disks : List String)
    (h : g.vmxSpec = none) :
    DoMount g w disks =
      { exit := Exit.raised, returned := false
        st := initialState w.bufferGarbage disks, trace := [] } := by
  simp only [DoMount, h]

theorem DoMount_raised (g : AppGlobals) (w : World) (disks : List String) (spec : String)
    (h : g.vmxSpec = some spec)
    (he : (acquire w disks (initialState (vmIdentifier w.bufferGarbage spec) disks)).exit
      = Exit.raised) :
    DoMount g w disks =
      { exit := Exit.raised, returned := false
        st := (acquire w disks (initialState (vmIdentifier w.bufferGarbage spec) disks)).st
        trace :=
          (acquire w disks (initialState (vmIdentifier w.bufferGarbage spec) disks)).trace } := by
  simp only [DoMount, h]
  generalize acquire w disks (initialState (vmIdentifier w.bufferGarbage spec) disks) = p at *
  rcases p with ⟨e, st, tr⟩
  simp only at he
  subst he
  rfl

theorem DoMount_returned (g : AppGlobals) (w : World) (disks : List String) (spec : String)
    (h : g.vmxSpec = some spec)
    (he : (acquire w disks (initialState (vmIdentifier w.bufferGarbage spec) disks)).exit
      ≠ Exit.raised) :
    DoMount g w disks =
      { exit := (acquire w disks (initialState (vmIdentifier w.bufferGarbage spec) disks)).exit
        returned := true
        st := (Teardown
          (acquire w disks (initialState (vmIdentifier w.bufferGarbage spec) disks)).st).1
        trace :=
          (acquire w disks (initialState (vmIdentifier w.bufferGarbage spec) disks)).trace ++
          cleanup (acquire w disks (initialState (vmIdentifier w.bufferGarbage spec) disks)).st } := by
  simp only [DoMount, h]
  generalize acquire w disks (initialState (vmIdentifier w.bufferGarbage spec) disks) = p at *
  rcases p with ⟨e, st, tr⟩
  cases e
  · rfl
  · rfl
  · exact absurd rfl he

theorem DoMount_shape (g : AppGlobals) (w : World) (disks : List String) :
    ((DoMount g w disks).returned = false ∧
        ∀ c ∈ (DoMount g w disks).trace, c.beforeCleanup = true) ∨
    ((DoMount g w disks).returned = true ∧
        ∃ before s, (DoMount g w disks).trace = before ++ cleanup s ∧
          ∀ c ∈ before, c.beforeCleanup = true) := by
  cases hs : g.vmxSpec with
  | none => left; rw [DoMount_none g w disks hs]; simp
  | some spec =>
    by_cases he : (acquire w disks (initialState (vmIdentifier w.bufferGarbage spec) disks)).exit
        = Exit.raised
    · left
      rw [DoMount_raised g w disks spec hs he]
      exact ⟨rfl, acquire_before w disks _⟩
    · right
      rw [DoMount_returned g w disks spec hs he]
      exact ⟨rfl, _, _, rfl, acquire_before w disks _⟩

theorem DoMount_layers (g : AppGlobals) (w : World) (disks : List String) :
    InLayerOrder codeLayer (DoMount g w disks).trace := by
  unfold InLayerOrder
  rcases DoMount_shape g w disks with ⟨_, h⟩ | ⟨_, before, s, e, h⟩
  · have h0 := layers_before _ h
    have := seg_sorted 0 0 _ [] (le_refl 0) h0 List.Pairwise.nil (by simp)
    simpa using this.1
  · rw [e, List.filterMap_append]
    exact (seg_sorted 0 0 _ _ (le_refl 0) (layers_before _ h) (cleanup_layers s).1
      (cleanup_layers s).2).1

theorem layers_le (l : List Call) : ∀ x ∈ l.filterMap codeLayer, x ≤ 5 := by
  intro x hx
  rcases List.mem_filterMap.1 hx with ⟨c, _, hcx⟩
  exact codeLayer_le c x hcx

theorem mainMount_layers_eq (g : AppGlobals) (w : World) (extraDisks : List String) :
    (mainMount g w extraDisks).trace.filterMap codeLayer = [] ∨
    (mainMount g w extraDisks).trace.filterMap codeLayer =
      (DoMount g w (g.diskPath :: extraDisks)).trace.filterMap codeLayer ∨
    (mainMount g w extraDisks).trace.filterMap codeLayer =
      (DoMount g w (g.diskPath :: extraDisks)).trace.filterMap codeLayer ++ [5] := by
  unfold mainMount mainEpilogue
  generalize DoMount g w (g.diskPath :: extraDisks) = r
  by_cases h1 : VIX_FAILED w.diskLibInit = true
  · left
    cases g.useInitEx <;> cases g.vmxSpec <;> simp [h1, codeLayer]
  · by_cases h2 : VIX_FAILED w.connectRemote = true
    · left
      cases g.useInitEx <;> cases g.vmxSpec <;> cases g.ssMoRef <;> cases g.transportModes <;>
        simp [h1, h2, codeLayer]
    · right
      by_cases h3 : r.returned = true
      · right
        cases g.useInitEx <;> cases g.vmxSpec <;> cases g.ssMoRef <;> cases g.transportModes <;>
          simp [h1, h2, h3, codeLayer, List.filterMap_append]
      · left
        cases g.useInitEx <;> cases g.vmxSpec <;> cases g.ssMoRef <;> cases g.transportModes <;>
          simp [h1, h2, h3, codeLayer, List.filterMap_append]

theorem mainMount_layers (g : AppGlobals) (w : World) (extraDisks : List String) :
    InLayerOrder codeLayer (mainMount g w extraDisks).trace := by
  have hr := DoMount_layers g w (g.diskPath :: extraDisks)
  have hle := layers_le (DoMount g w (g.diskPath :: extraDisks)).trace
  unfold InLayerOrder at hr ⊢
  rcases mainMount_layers_eq g w extraDisks with e | e | e <;> rw [e]
  · exact List.Pairwise.nil
  · exact hr
  · refine List.pairwise_append.2 ⟨hr, by simp, ?_⟩
    intro a ha b hb
    simp only [List.mem_singleton] at hb
    subst hb
    exact hle a ha

theorem mem_UnmountVolumes (c : Call) (l : List MountedVolume) :
    c ∈ UnmountVolumes l ↔
      ∃ mv ∈ l, c = Call.VixMntapi_FreeVolumeInfo mv.volInfo ∨
        c = Call.VixMntapi_DismountVolume mv.volumeHandle := by
  induction l with
  | nil => simp [UnmountVolumes]
  | cons mv rest ih =>
    simp only [UnmountVolumes, List.mem_cons, ih, exists_eq_or_imp]
    rw [or_assoc]

theorem mem_UnmountDisks (c : Call) (l : List Ptr) :
    c ∈ UnmountDisks l ↔ ∃ h ∈ l, c = Call.VixMntapi_CloseDiskSet h := by
  induction l with
  | nil => simp [UnmountDisks]
  | cons h rest ih =>
    simp only [UnmountDisks, List.mem_cons, ih, exists_eq_or_imp]

theorem mem_closeLoop (c : Call) (s : MountState) (n : Nat) :
    ∀ j, c ∈ closeLoop s n j ↔
      ∃ k, j ≤ k ∧ k < j + n ∧
        (c = Call.VixDiskLib_Close (s.diskHandles.getD k VixDiskLibHandle.null) ∨
         c = Call.VixDiskLib_Unlink s.localConnection (s.childDisks.getD k "") ∨
         c = Call.DeleteFileA (s.childDisks.getD k "")) := by
  induction n with
  | zero =>
    intro j
    simp only [closeLoop, List.not_mem_nil, false_iff, not_exists]
    intro k hk
    omega
  | succ n ih =>
    intro j
    simp only [closeLoop, List.mem_cons, ih]
    constructor
    · rintro (h | h | h | ⟨k, h1, h2, h3⟩)
      · exact ⟨j, le_refl _, by omega, Or.inl h⟩
      · exact ⟨j, le_refl _, by omega, Or.inr (Or.inl h)⟩
      · exact ⟨j, le_refl _, by omega, Or.inr (Or.inr h)⟩
      · exact ⟨k, by omega, by omega, h3⟩
    · rintro ⟨k, h1, h2, h3⟩
      by_cases hk : k = j
      · subst hk
        rcases h3 with h | h | h
        · exact Or.inl h
        · exact Or.inr (Or.inl h)
        · exact Or.inr (Or.inr (Or.inl h))
      · exact Or.inr (Or.inr (Or.inr ⟨k, by omega, by omega, h3⟩))

theorem mem_cleanup (c : Call) (s : MountState) :
    c ∈ cleanup s ↔
      c = Call.printf_CleanupStuff ∨ c = Call.VixMntapi_FreeDiskSetInfo s.diskSetInfo ∨
      (s.volumeHandles ≠ Ptr.null ∧ c = Call.VixMntapi_FreeVolumeHandles) ∨
      c ∈ UnmountVolumes s.mountedVolumes ∨ c ∈ UnmountDisks s.mountedDisks ∨
      c ∈ closeLoop s s.diskHandlesCount 0 ∨
      c = Call.VixDiskLib_Disconnect s.localConnection ∨ c = Call.VixMntapi_Exit := by
  unfold cleanup
  by_cases h : s.volumeHandles = Ptr.null
  · simp [h]
  · simp [h]

theorem count_cleanup_printf (s : MountState) :
    (cleanup s).count Call.printf_CleanupStuff = 1 := by
  have h : (cleanup s) = Call.printf_CleanupStuff ::
      (Call.VixMntapi_FreeDiskSetInfo s.diskSetInfo ::
    ((if s.volumeHandles = Ptr.null then [] else [Call.VixMntapi_FreeVolumeHandles]) ++
      UnmountVolumes s.mountedVolumes ++
      UnmountDisks s.mountedDisks ++
      closeLoop s s.diskHandlesCount 0 ++
      [Call.VixDiskLib_Disconnect s.localConnection, Call.VixMntapi_Exit])) := rfl
  rw [h, List.count_cons_self, Nat.add_left_eq_self, List.count_eq_zero]
  intro hm
  simp only [List.mem_cons, List.mem_append, mem_UnmountVolumes, mem_UnmountDisks,
    mem_closeLoop, List.mem_singleton, List.not_mem_nil, or_false] at hm
  split at hm <;> simp at hm

theorem CHECK_ok (err : VixError) (s ok : MountState) (calls : List Call)
    (h : VIX_FAILED err = false) :
    CHECK err s ok calls = { exit := Exit.fallThrough, st := ok, trace := calls } := by
  unfold CHECK
  rw [h]
  rfl

theorem CHECK_fail (err : VixError) (s ok : MountState) (calls : List Call)
    (h : VIX_FAILED err = true) :
    CHECK err s ok calls = { exit := Exit.failedCheck, st := s, trace := calls } := by
  unfold CHECK
  rw [h]
  rfl

theorem andThen_fall (p : Phase) (f : MountState → Phase) (h : p.exit = Exit.fallThrough) :
    p.andThen f =
      { exit := (f p.st).exit, st := (f p.st).st, trace := p.trace ++ (f p.st).trace } := by
  unfold Phase.andThen
  rw [h]

theorem andThen_stop (p : Phase) (f : MountState → Phase) (h : p.exit ≠ Exit.fallThrough) :
    p.andThen f = p := by
  unfold Phase.andThen
  split
  · rename_i h2; exact absurd h2 h
  · rfl

theorem provisionDisk_ok (w : World) (i : Nat) (path : String) (s : MountState)
    (h : DiskOk w i) :
    provisionDisk w i path s =
      { exit := Exit.fallThrough
        st := { s with diskHandles := s.diskHandles.set i (VixDiskLibHandle.child i) }
        trace := [Call.VixDiskLib_Open_remote i path, Call.VixDiskLib_GetTransportMode i,
          Call.VixDiskLib_CreateChild i (s.childDisks.getD i ""),
          Call.VixDiskLib_Open_child i (s.childDisks.getD i ""),
          Call.VixDiskLib_Attach i] } := by
  rcases h with ⟨h1, h2, h3, h4⟩
  unfold provisionDisk
  rw [CHECK_ok _ _ _ _ h1, andThen_fall _ _ rfl]
  simp only
  rw [CHECK_ok _ _ _ _ h2, andThen_fall _ _ rfl]
  simp only
  rw [CHECK_ok _ _ _ _ h3, andThen_fall _ _ rfl]
  simp only
  rw [CHECK_ok _ _ _ _ h4]
  rfl

theorem provisionDisk_fail (w : World) (i : Nat) (path : String) (s : MountState)
    (h : ¬ DiskOk w i) :
    (provisionDisk w i path s).exit = Exit.failedCheck ∧ (provisionDisk w i path s).st = s := by
  unfold DiskOk at h
  unfold provisionDisk
  cases h1 : VIX_FAILED (w.openRemote i)
  · rw [CHECK_ok _ _ _ _ h1, andThen_fall _ _ rfl]
    simp only
    cases h2 : VIX_FAILED (w.createChild i)
    · rw [CHECK_ok _ _ _ _ h2, andThen_fall _ _ rfl]
      simp only
      cases h3 : VIX_FAILED (w.openChild i)
      · rw [CHECK_ok _ _ _ _ h3, andThen_fall _ _ rfl]
        simp only
        cases h4 : VIX_FAILED (w.attach i)
        · exact absurd ⟨h1, h2, h3, h4⟩ h
        · rw [CHECK_fail _ _ _ _ h4]
          exact ⟨rfl, rfl⟩
      · rw [CHECK_fail _ _ _ _ h3, andThen_stop _ _ (by simp)]
        exact ⟨rfl, rfl⟩
    · rw [CHECK_fail _ _ _ _ h2, andThen_stop _ _ (by simp)]
      exact ⟨rfl, rfl⟩
  · rw [CHECK_fail _ _ _ _ h1, andThen_stop _ _ (by simp)]
    exact ⟨rfl, rfl⟩

theorem provisionDisk_cases (w : World) (i : Nat) (path : String) (s : MountState) :
    ∃ calls, calls <+: [Call.VixDiskLib_Open_remote i path, Call.VixDiskLib_GetTransportMode i,
          Call.VixDiskLib_CreateChild i (s.childDisks.getD i ""),
          Call.VixDiskLib_Open_child i (s.childDisks.getD i ""),
          Call.VixDiskLib_Attach i] ∧
      (provisionDisk w i path s = { exit := Exit.failedCheck, st := s, trace := calls } ∨
       provisionDisk w i path s =
        { exit := Exit.fallThrough
          st := { s with diskHandles := s.diskHandles.set i (VixDiskLibHandle.child i) }
          trace := calls }) := by
  by_cases h : DiskOk w i
  · exact ⟨_, List.prefix_refl _, Or.inr (provisionDisk_ok w i path s h)⟩
  unfold DiskOk at h
  unfold provisionDisk
  cases h1 : VIX_FAILED (w.openRemote i)
  · rw [CHECK_ok _ _ _ _ h1, andThen_fall _ _ rfl]
    simp only
    cases h2 : VIX_FAILED (w.createChild i)
    · rw [CHECK_ok _ _ _ _ h2, andThen_fall _ _ rfl]
      simp only
      cases h3 : VIX_FAILED (w.openChild i)
      · rw [CHECK_ok _ _ _ _ h3, andThen_fall _ _ rfl]
        simp only
        cases h4 : VIX_FAILED (w.attach i)
        · exact absurd ⟨h1, h2, h3, h4⟩ h
        · rw [CHECK_fail _ _ _ _ h4]
          exact ⟨_, List.prefix_refl _, Or.inl rfl⟩
      · rw [CHECK_fail _ _ _ _ h3, andThen_stop _ _ (by simp)]
        exact ⟨_, ⟨[_], rfl⟩, Or.inl rfl⟩
    · rw [CHECK_fail _ _ _ _ h2, andThen_stop _ _ (by simp)]
      exact ⟨_, ⟨[_, _], rfl⟩, Or.inl rfl⟩
  · rw [CHECK_fail _ _ _ _ h1, andThen_stop _ _ (by simp)]
    exact ⟨_, ⟨[_, _, _, _], rfl⟩, Or.inl rfl⟩

theorem provisionDisk_index (w : World) (i : Nat) (path : String) (s : MountState) :
    ∀ c ∈ (provisionDisk w i path s).trace, c.diskIndex = some i ∧
      ∀ k p, c = Call.VixDiskLib_CreateChild k p → p = s.childDisks.getD i "" := by
  rcases provisionDisk_cases w i path s with ⟨calls, hp, e | e⟩ <;>
  · rw [e]
    intro c hc
    have hm := hp.subset hc
    simp only [List.mem_cons, List.not_mem_nil, or_false] at hm
    rcases hm with h | h | h | h | h <;> subst h <;> simp [Call.diskIndex]

theorem provisionDisk_st (w : World) (i : Nat) (path : String) (s : MountState) :
    (provisionDisk w i path s).st = s ∨
      (provisionDisk w i path s).st =
        { s with diskHandles := s.diskHandles.set i (VixDiskLibHandle.child i) } := by
  rcases provisionDisk_cases w i path s with ⟨calls, _, e | e⟩ <;> rw [e]
  · exact Or.inl rfl
  · exact Or.inr rfl

/-- What the provisioning loop leaves unchanged, and the handles it leaves
alone. -/
theorem provisionLoop_frame (w : World) (iter : List String) :
    ∀ (i0 : Nat) (s : MountState),
      (provisionLoop w i0 iter s).st =
          { s with diskHandles := (provisionLoop w i0 iter s).st.diskHandles } ∧
        (provisionLoop w i0 iter s).st.diskHandles.length = s.diskHandles.length ∧
        ∀ k, k < i0 → (provisionLoop w i0 iter s).st.diskHandles.getD k VixDiskLibHandle.null =
          s.diskHandles.getD k VixDiskLibHandle.null := by
  induction iter with
  | nil => intro i0 s; exact ⟨rfl, rfl, fun _ _ => rfl⟩
  | cons path rest ih =>
    intro i0 s
    unfold provisionLoop
    rcases provisionDisk_cases w i0 path s with ⟨calls, _, e | e⟩
    · rw [e, andThen_stop _ _ (by simp)]
      exact ⟨rfl, rfl, fun _ _ => rfl⟩
    · rw [e, andThen_fall _ _ rfl]
      simp only
      rcases ih (i0 + 1)
        { s with diskHandles := s.diskHandles.set i0 (VixDiskLibHandle.child i0) }
        with ⟨h1, h2, h3⟩
      refine ⟨?_, ?_, ?_⟩
      · rw [h1]
      · rw [h2]; simp
      · intro k hk
        rw [h3 k (by omega)]
        simp only [List.getD_eq_getElem?_getD]
        rw [List.getElem?_set_ne (by omega)]

theorem andThen_all_st (P : Call → Prop) (p : Phase) (f : MountState → Phase)
    (hp : ∀ c ∈ p.trace, P c)
    (hf : p.exit = Exit.fallThrough → ∀ c ∈ (f p.st).trace, P c) :
    ∀ c ∈ (p.andThen f).trace, P c := by
  intro c hc
  unfold Phase.andThen at hc
  split at hc
  · rename_i h
    simp only [List.mem_append] at hc
    rcases hc with h2 | h2
    · exact hp c h2
    · exact hf h c h2
  · exact hp c hc

theorem provisionDisk_childDisks (w : World) (i : Nat) (path : String) (s : MountState) :
    (provisionDisk w i path s).st.childDisks = s.childDisks := by
  rcases provisionDisk_st w i path s with e | e <;> rw [e]

theorem provisionLoop_index (w : World) (iter : List String) :
    ∀ (i0 : Nat) (s : MountState), ∀ c ∈ (provisionLoop w i0 iter s).trace,
      ∃ k, c.diskIndex = some k ∧ i0 ≤ k ∧ k < i0 + iter.length ∧
        ∀ k2 p, c = Call.VixDiskLib_CreateChild k2 p → p = s.childDisks.getD k "" := by
  induction iter with
  | nil => intro i0 s c hc; simp [provisionLoop] at hc
  | cons path rest ih =>
    intro i0 s
    unfold provisionLoop
    refine andThen_all_st _ _ _ ?_ ?_
    · intro c hc
      have := provisionDisk_index w i0 path s c hc
      exact ⟨i0, this.1, le_refl _, by simp, this.2⟩
    · intro _ c hc
      rcases ih (i0 + 1) _ c hc with ⟨k, h1, h2, h3, h4⟩
      rw [provisionDisk_childDisks] at h4
      exact ⟨k, h1, by omega, by simp only [List.length_cons]; omega, h4⟩

theorem getD_set_self (l : List VixDiskLibHandle) (i : Nat) (h : i < l.length)
    (x : VixDiskLibHandle) : (l.set i x).getD i VixDiskLibHandle.null = x := by
  simp only [List.getD_eq_getElem?_getD]
  rw [List.getElem?_set_self h]
  rfl

theorem provisionLoop_ok (w : World) (iter : List String) :
    ∀ (i0 : Nat) (s : MountState),
      (∀ k, i0 ≤ k → k < i0 + iter.length → DiskOk w k) →
      (provisionLoop w i0 iter s).exit = Exit.fallThrough ∧
        ∀ k, i0 ≤ k → k < i0 + iter.length → k < s.diskHandles.length →
          (provisionLoop w i0 iter s).st.diskHandles.getD k VixDiskLibHandle.null =
            VixDiskLibHandle.child k := by
  induction iter with
  | nil =>
    intro i0 s _
    refine ⟨rfl, fun k h1 h2 => ?_⟩
    simp only [List.length_nil] at h2
    omega
  | cons path rest ih =>
    intro i0 s hok
    unfold provisionLoop
    rw [provisionDisk_ok w i0 path s (hok i0 (le_refl _) (by simp)), andThen_fall _ _ rfl]
    simp only
    have hrec := ih (i0 + 1)
      { s with diskHandles := s.diskHandles.set i0 (VixDiskLibHandle.child i0) }
      (fun k h1 h2 => hok k (by omega) (by simp only [List.length_cons]; omega))
    refine ⟨hrec.1, fun k h1 h2 h3 => ?_⟩
    by_cases hk : k = i0
    · subst hk
      rw [(provisionLoop_frame w rest (k + 1) _).2.2 k (by omega)]
      exact getD_set_self _ _ h3 _
    · refine hrec.2 k (by omega) ?_ ?_
      · simp only [List.length_cons] at h2; omega
      · simpa using h3

theorem provisionLoop_fail (w : World) (iter : List String) :
    ∀ (i0 i : Nat) (s : MountState), i0 ≤ i → i < i0 + iter.length →
      (∀ k, i0 ≤ k → k < i → DiskOk w k) → ¬ DiskOk w i →
      (provisionLoop w i0 iter s).exit = Exit.failedCheck ∧
        (∀ c ∈ (provisionLoop w i0 iter s).trace, ∃ k, c.diskIndex = some k ∧ k ≤ i) ∧
        ∀ k, i0 ≤ k → k < i → k < s.diskHandles.length →
          (provisionLoop w i0 iter s).st.diskHandles.getD k VixDiskLibHandle.null =
            VixDiskLibHandle.child k := by
  induction iter with
  | nil =>
    intro i0 i s h1 h2
    simp only [List.length_nil] at h2
    omega
  | cons path rest ih =>
    intro i0 i s h1 h2 hok hbad
    simp only [List.length_cons] at h2
    unfold provisionLoop
    by_cases hi : i = i0
    · subst hi
      have hf := provisionDisk_fail w i path s hbad
      rw [andThen_stop _ _ (by rw [hf.1]; simp)]
      refine ⟨hf.1, fun c hc => ⟨i, (provisionDisk_index w i path s c hc).1, le_refl _⟩,
        fun k h3 h4 => ?_⟩
      omega
    · have hd := provisionDisk_ok w i0 path s (hok i0 (le_refl _) (by omega))
      rw [hd, andThen_fall _ _ rfl]
      simp only
      have hrec := ih (i0 + 1) i
        { s with diskHandles := s.diskHandles.set i0 (VixDiskLibHandle.child i0) }
        (by omega) (by omega) (fun k h3 h4 => hok k (by omega) h4) hbad
      refine ⟨hrec.1, ?_, fun k h3 h4 h5 => ?_⟩
      · intro c hc
        simp only [List.mem_append] at hc
        rcases hc with hc | hc
        · have := provisionDisk_index w i0 path s c (by rw [hd]; exact hc)
          exact ⟨i0, this.1, h1⟩
        · exact hrec.2.1 c hc
      · by_cases hk : k = i0
        · subst hk
          rw [(provisionLoop_frame w rest (k + 1) _).2.2 k (by omega)]
          exact getD_set_self _ _ h5 _
        · exact hrec.2.2 k (by omega) h4 (by simpa using h5)

theorem initPhase_ok (w : World) (s : MountState) (h : VIX_FAILED w.mntapiInit = false) :
    initPhase w s = { exit := Exit.fallThrough, st := s, trace := [Call.VixMntapi_Init] } :=
  CHECK_ok _ _ _ _ h

theorem connectPhase_ok (w : World) (s : MountState) (h : VIX_FAILED w.connectLocal = false) :
    connectPhase w s =
      { exit := Exit.fallThrough
        st := { s with localConnection := VixDiskLibConnection.localHost }
        trace := [Call.VixDiskLib_Connect_local] } :=
  CHECK_ok _ _ _ _ h

theorem acquire_steps (w : World) (disks : List String) (s0 : MountState)
    (h1 : VIX_FAILED w.mntapiInit = false) (h2 : VIX_FAILED w.connectLocal = false) :
    ((initPhase w s0).andThen (connectPhase w)).andThen (provisionLoop w 0 disks) =
      { exit := (provisionLoop w 0 disks
          { s0 with localConnection := VixDiskLibConnection.localHost }).exit
        st := (provisionLoop w 0 disks
          { s0 with localConnection := VixDiskLibConnection.localHost }).st
        trace := [Call.VixMntapi_Init, Call.VixDiskLib_Connect_local] ++
          (provisionLoop w 0 disks
            { s0 with localConnection := VixDiskLibConnection.localHost }).trace } := by
  rw [initPhase_ok w s0 h1, andThen_fall _ (connectPhase w) rfl]
  simp only
  rw [connectPhase_ok w s0 h2, andThen_fall _ (provisionLoop w 0 disks) rfl]
  rfl

theorem acquire_provisioning_fails (w : World) (disks : List String) (s0 : MountState)
    (i : Nat) (hf : ProvisioningFailsAt w disks.length i) :
    acquire w disks s0 =
      { exit := Exit.failedCheck
        st := (provisionLoop w 0 disks
          { s0 with localConnection := VixDiskLibConnection.localHost }).st
        trace := [Call.VixMntapi_Init, Call.VixDiskLib_Connect_local] ++
          (provisionLoop w 0 disks
            { s0 with localConnection := VixDiskLibConnection.localHost }).trace } := by
  rcases hf with ⟨h1, h2, h3, h4, h5⟩
  have hP := (provisionLoop_fail w disks 0 i
    { s0 with localConnection := VixDiskLibConnection.localHost } (Nat.zero_le _) (by omega)
    (fun k _ hk => h4 k hk) h5).1
  unfold acquire
  rw [acquire_steps w disks s0 h1 h2, hP]
  rw [andThen_stop _ (openDiskSetPhase w) (by simp), andThen_stop _ (diskSetInfoPhase w) (by simp),
    andThen_stop _ (volumeHandlesPhase w) (by simp), andThen_stop _ (mountPhase w) (by simp),
    andThen_stop _ (describePhase w) (by simp)]

theorem cleanup_not_before (s : MountState) :
    ∀ c ∈ cleanup s, c.beforeCleanup = false := by
  intro c hc
  rw [mem_cleanup] at hc
  simp only [mem_UnmountVolumes, mem_UnmountDisks, mem_closeLoop] at hc
  rcases hc with h | h | ⟨_, h⟩ | ⟨_, _, h | h⟩ | ⟨_, _, h⟩ | ⟨_, _, _, h | h | h⟩ | h | h <;>
    subst h <;> rfl

theorem diskIndex_before (c : Call) (k : Nat) (h : c.diskIndex = some k) :
    c.beforeCleanup = true := by
  cases c <;> simp_all [Call.diskIndex, Call.beforeCleanup]

theorem storageAfter_append (a b : List Call) :
    ∀ files, storageAfter (a ++ b) files = storageAfter b (storageAfter a files) := by
  induction a with
  | nil => intro files; rfl
  | cons c rest ih =>
    intro files
    rw [List.cons_append]
    cases c <;> simp only [storageAfter] <;> exact ih _

theorem storageAfter_created (l : List Call) :
    ∀ files p, p ∈ storageAfter l files →
      p ∈ files ∨ ∃ k, Call.VixDiskLib_CreateChild k p ∈ l := by
  induction l with
  | nil => intro files p h; exact Or.inl h
  | cons c rest ih =>
    intro files p h
    cases c
    case VixDiskLib_CreateChild k q =>
      simp only [storageAfter] at h
      rcases ih _ p h with h1 | ⟨k2, h1⟩
      · rcases List.mem_cons.1 h1 with e | e
        · subst e; exact Or.inr ⟨k, List.mem_cons_self _ _⟩
        · exact Or.inl e
      · exact Or.inr ⟨k2, List.mem_cons_of_mem _ h1⟩
    case DeleteFileA q =>
      simp only [storageAfter] at h
      rcases ih _ p h with h1 | ⟨k2, h1⟩
      · exact Or.inl (List.mem_filter.1 h1).1
      · exact Or.inr ⟨k2, List.mem_cons_of_mem _ h1⟩
    all_goals
      simp only [storageAfter] at h
      rcases ih _ p h with h1 | ⟨k2, h1⟩
      · exact Or.inl h1
      · exact Or.inr ⟨k2, List.mem_cons_of_mem _ h1⟩

theorem storageAfter_kept (l : List Call) :
    ∀ files p, (∀ c ∈ l, c.beforeCleanup = false) → p ∈ storageAfter l files →
      p ∈ files ∧ Call.DeleteFileA p ∉ l := by
  induction l with
  | nil => intro files p _ h; exact ⟨h, by simp⟩
  | cons c rest ih =>
    intro files p hc h
    have hrest : ∀ c ∈ rest, c.beforeCleanup = false :=
      fun d hd => hc d (List.mem_cons_of_mem _ hd)
    have hhead := hc c (List.mem_cons_self _ _)
    cases c
    case VixDiskLib_CreateChild k q => simp [Call.beforeCleanup] at hhead
    case DeleteFileA q =>
      simp only [storageAfter] at h
      rcases ih _ p hrest h with ⟨h1, h2⟩
      have hf := List.mem_filter.1 h1
      refine ⟨hf.1, ?_⟩
      intro hm
      rcases List.mem_cons.1 hm with e | e
      · have : p = q := by injection e
        subst this
        simp at hf
      · exact h2 e
    all_goals
      simp only [storageAfter] at h
      rcases ih _ p hrest h with ⟨h1, h2⟩
      refine ⟨h1, ?_⟩
      intro hm
      rcases List.mem_cons.1 hm with e | e
      · cases e
      · exact h2 e

theorem storageAfter_empty (before : List Call) (s : MountState)
    (h : ∀ k p, Call.VixDiskLib_CreateChild k p ∈ before → Call.DeleteFileA p ∈ cleanup s) :
    storageAfter (before ++ cleanup s) [] = [] := by
  rw [List.eq_nil_iff_forall_not_mem]
  intro p hp
  rw [storageAfter_append] at hp
  rcases storageAfter_kept _ _ p (cleanup_not_before s) hp with ⟨h1, h2⟩
  rcases storageAfter_created _ _ p h1 with h3 | ⟨k, h3⟩
  · simp at h3
  · exact h2 (h k p h3)

theorem provisioning_fails_run (g : AppGlobals) (w : World) (disks : List String)
    (spec : String) (i : Nat) (hspec : g.vmxSpec = some spec)
    (hf : ProvisioningFailsAt w disks.length i) :
    ∃ P : Phase,
      (DoMount g w disks).returned = true ∧
      (DoMount g w disks).trace =
        ([Call.VixMntapi_Init, Call.VixDiskLib_Connect_local] ++ P.trace) ++ cleanup P.st ∧
      (∀ c ∈ P.trace, ∃ k, c.diskIndex = some k ∧ k ≤ i ∧
        ∀ k2 p, c = Call.VixDiskLib_CreateChild k2 p →
          k < disks.length ∧ p = P.st.childDisks.getD k "") ∧
      P.st.diskHandlesCount = disks.length ∧
      P.st.localConnection = VixDiskLibConnection.localHost ∧
      ∀ k, k < i → P.st.diskHandles.getD k VixDiskLibHandle.null = VixDiskLibHandle.child k := by
  have ha := acquire_provisioning_fails w disks
    (initialState (vmIdentifier w.bufferGarbage spec) disks) i hf
  rcases hf with ⟨h1, h2, h3, h4, h5⟩
  have hP := provisionLoop_fail w disks 0 i
    { initialState (vmIdentifier w.bufferGarbage spec) disks with
      localConnection := VixDiskLibConnection.localHost } (Nat.zero_le _) (by omega)
    (fun k _ hk => h4 k hk) h5
  have hfr := provisionLoop_frame w disks 0
    { initialState (vmIdentifier w.bufferGarbage spec) disks with
      localConnection := VixDiskLibConnection.localHost }
  have hidx := provisionLoop_index w disks 0
    { initialState (vmIdentifier w.bufferGarbage spec) disks with
      localConnection := VixDiskLibConnection.localHost }
  refine ⟨provisionLoop w 0 disks
    { initialState (vmIdentifier w.bufferGarbage spec) disks with
      localConnection := VixDiskLibConnection.localHost }, ?_, ?_, ?_, ?_, ?_, ?_⟩
  · rw [DoMount_returned g w disks spec hspec (by rw [ha]; simp)]
  · rw [DoMount_returned g w disks spec hspec (by rw [ha]; simp), ha]
  · intro c hc
    rcases hP.2.1 c hc with ⟨k, hk1, hk2⟩
    rcases hidx c hc with ⟨k3, hk3, _, hk4, hk5⟩
    have : k3 = k := by rw [hk1] at hk3; injection hk3 with e; exact e.symm
    subst this
    refine ⟨k3, hk1, hk2, fun k2 p e => ⟨by omega, ?_⟩⟩
    rw [hfr.1]
    exact hk5 k2 p e
  · rw [hfr.1]; rfl
  · rw [hfr.1]
  · intro k hk
    refine hP.2.2 k (Nat.zero_le _) hk ?_
    simp only [initialState, List.length_replicate]
    omega

theorem acquire_openDiskSet_fails (w : World) (disks : List String) (s0 : MountState)
    (hp : ProvisioningSucceeds w disks.length) (hf : VIX_FAILED w.openDiskSet = true) :
    acquire w disks s0 =
      { exit := Exit.failedCheck
        st := (provisionLoop w 0 disks
          { s0 with localConnection := VixDiskLibConnection.localHost }).st
        trace := ([Call.VixMntapi_Init, Call.VixDiskLib_Connect_local] ++
          (provisionLoop w 0 disks
            { s0 with localConnection := VixDiskLibConnection.localHost }).trace) ++
          [Call.VixMntapi_OpenDiskSet
            (provisionLoop w 0 disks
              { s0 with localConnection := VixDiskLibConnection.localHost }).st.diskHandles
            (provisionLoop w 0 disks
              { s0 with localConnection := VixDiskLibConnection.localHost }).st.diskHandlesCount] } := by
  rcases hp with ⟨h1, h2, h3⟩
  have hP := (provisionLoop_ok w disks 0
    { s0 with localConnection := VixDiskLibConnection.localHost }
    (fun k _ hk => h3 k (by omega))).1
  unfold acquire
  rw [acquire_steps w disks s0 h1 h2, hP, andThen_fall _ (openDiskSetPhase w) rfl]
  simp only
  unfold openDiskSetPhase
  rw [CHECK_fail _ _ _ _ hf]
  simp only
  rw [andThen_stop _ (diskSetInfoPhase w) (by simp),
    andThen_stop _ (volumeHandlesPhase w) (by simp), andThen_stop _ (mountPhase w) (by simp),
    andThen_stop _ (describePhase w) (by simp)]

theorem attachFailsWorld_fails : ProvisioningFailsAt attachFailsWorld 2 1 := by
  refine ⟨rfl, rfl, by decide, ?_, ?_⟩
  · intro k hk
    have : k = 0 := by omega
    subst this
    exact ⟨rfl, rfl, rfl, rfl⟩
  · intro h
    have := h.2.2.2
    revert this
    decide

theorem openDiskSetFailsWorld_provisions : ProvisioningSucceeds openDiskSetFailsWorld 1 :=
  ⟨rfl, rfl, fun _ _ => ⟨rfl, rfl, rfl, rfl⟩⟩

theorem openDiskSet_fails_run (g : AppGlobals) (w : World) (disks : List String)
    (spec : String) (hspec : g.vmxSpec = some spec)
    (hp : ProvisioningSucceeds w disks.length) (hf : VIX_FAILED w.openDiskSet = true) :
    ∃ P : Phase,
      (DoMount g w disks).returned = true ∧
      (DoMount g w disks).trace =
        (([Call.VixMntapi_Init, Call.VixDiskLib_Connect_local] ++ P.trace) ++
          [Call.VixMntapi_OpenDiskSet P.st.diskHandles disks.length]) ++ cleanup P.st ∧
      ∀ c ∈ P.trace, ∃ k, c.diskIndex = some k := by
  have ha := acquire_openDiskSet_fails w disks
    (initialState (vmIdentifier w.bufferGarbage spec) disks) hp hf
  have hidx := provisionLoop_index w disks 0
    { initialState (vmIdentifier w.bufferGarbage spec) disks with
      localConnection := VixDiskLibConnection.localHost }
  have hfr := provisionLoop_frame w disks 0
    { initialState (vmIdentifier w.bufferGarbage spec) disks with
      localConnection := VixDiskLibConnection.localHost }
  have hcount : (provisionLoop w 0 disks
      { initialState (vmIdentifier w.bufferGarbage spec) disks with
        localConnection := VixDiskLibConnection.localHost }).st.diskHandlesCount
        = disks.length := by
    rw [hfr.1]; rfl
  rw [hcount] at ha
  refine ⟨provisionLoop w 0 disks
    { initialState (vmIdentifier w.bufferGarbage spec) disks with
      localConnection := VixDiskLibConnection.localHost }, ?_, ?_, ?_⟩
  · rw [DoMount_returned g w disks spec hspec (by rw [ha]; simp)]
  · rw [DoMount_returned g w disks spec hspec (by rw [ha]; simp), ha]
  · intro c hc
    rcases hidx c hc with ⟨k, h1, _⟩
    exact ⟨k, h1⟩

theorem mountVolumeStep_already (w : World) (v : Nat) (s : MountState)
    (h : w.mountVolume v = ERROR_MNTAPI_VOLUME_ALREADY_MOUNTED) :
    mountVolumeStep w v s =
      { exit := Exit.fallThrough, st := s, trace := [Call.VixMntapi_MountVolume v] } := by
  unfold mountVolumeStep
  rw [if_pos h]

theorem diskIndex_not_volume (c : Call) (k : Nat) (h : c.diskIndex = some k) :
    c.mountedVolume = none ∧ c.describedVolume = none := by
  cases c <;> simp_all [Call.diskIndex, Call.mountedVolume, Call.describedVolume]

theorem acquire_reaches_mount (w : World) (disks : List String) (s0 : MountState)
    (h : ReachesMountLoop w disks.length) (h0 : s0.mountedVolumes = []) :
    ∃ (S : MountState) (T : List Call),
      (((((initPhase w s0).andThen (connectPhase w)).andThen (provisionLoop w 0 disks)).andThen
        (openDiskSetPhase w)).andThen (diskSetInfoPhase w)).andThen (volumeHandlesPhase w) =
        { exit := Exit.fallThrough, st := S, trace := T } ∧
      S.numVolumes = w.numVolumes ∧ S.j = w.startVolume ∧ S.mountedVolumes = [] ∧
      ∀ c ∈ T, c.mountedVolume = none ∧ c.describedVolume = none := by
  rcases h with ⟨⟨h1, h2, h3⟩, h4, h5, h6⟩
  have hP := (provisionLoop_ok w disks 0
    { s0 with localConnection := VixDiskLibConnection.localHost }
    (fun k _ hk => h3 k (by omega))).1
  have hfr := (provisionLoop_frame w disks 0
    { s0 with localConnection := VixDiskLibConnection.localHost }).1
  have hidx := provisionLoop_index w disks 0
    { s0 with localConnection := VixDiskLibConnection.localHost }
  rw [acquire_steps w disks s0 h1 h2, hP, andThen_fall _ (openDiskSetPhase w) rfl]
  simp only
  unfold openDiskSetPhase
  rw [CHECK_ok _ _ _ _ h4]
  simp only
  rw [andThen_fall _ (diskSetInfoPhase w) rfl]
  simp only
  unfold diskSetInfoPhase
  rw [CHECK_ok _ _ _ _ h5]
  simp only
  rw [andThen_fall _ (volumeHandlesPhase w) rfl]
  simp only
  unfold volumeHandlesPhase
  rw [CHECK_ok _ _ _ _ h6]
  refine ⟨_, _, rfl, rfl, rfl, ?_, ?_⟩
  · show (provisionLoop w 0 disks _).st.mountedVolumes = []
    rw [hfr]
    exact h0
  · intro c hc
    rcases List.mem_append.1 hc with hc | hc
    · rcases List.mem_append.1 hc with hc | hc
      · rcases List.mem_append.1 hc with hc | hc
        · rcases List.mem_append.1 hc with hc | hc
          · simp only [List.mem_cons, List.not_mem_nil, or_false] at hc
            rcases hc with h | h <;> subst h <;> exact ⟨rfl, rfl⟩
          · rcases hidx c hc with ⟨k, hk, _⟩
            exact diskIndex_not_volume c k hk
        · rw [List.mem_singleton.1 hc]; exact ⟨rfl, rfl⟩
      · rw [List.mem_singleton.1 hc]; exact ⟨rfl, rfl⟩
    · rw [List.mem_singleton.1 hc]; exact ⟨rfl, rfl⟩

theorem mountVolumeStep_ok (w : World) (v : Nat) (s : MountState) (h : MountOk w v) :
    mountVolumeStep w v s =
      { exit := Exit.fallThrough, st := s, trace := [Call.VixMntapi_MountVolume v] } := by
  rcases h with h | h
  · exact mountVolumeStep_already w v s h
  · unfold mountVolumeStep
    split
    · rfl
    · exact CHECK_ok _ _ _ _ h

theorem mountVolumeStep_fatal (w : World) (v : Nat) (s : MountState) (h : MountFatal w v) :
    mountVolumeStep w v s =
      { exit := Exit.failedCheck, st := s, trace := [Call.VixMntapi_MountVolume v] } := by
  unfold mountVolumeStep
  rw [if_neg h.1]
  exact CHECK_fail _ _ _ _ h.2

theorem mountLoop_fatal (w : World) (a : List Nat) (v : Nat) (b : List Nat) :
    ∀ s, (∀ u ∈ a, MountOk w u) → MountFatal w v →
      mountLoop w (a ++ v :: b) s =
        { exit := Exit.failedCheck, st := s
          trace := (a ++ [v]).map Call.VixMntapi_MountVolume } := by
  induction a with
  | nil =>
    intro s _ hv
    show (mountVolumeStep w v s).andThen (mountLoop w b) = _
    rw [mountVolumeStep_fatal w v s hv, andThen_stop _ _ (by simp)]
    rfl
  | cons u rest ih =>
    intro s h hv
    show (mountVolumeStep w u s).andThen (mountLoop w (rest ++ v :: b)) = _
    rw [mountVolumeStep_ok w u s (h u (List.mem_cons_self _ _)), andThen_fall _ _ rfl]
    simp only
    rw [ih s (fun x hx => h x (List.mem_cons_of_mem _ hx)) hv]
    rfl

theorem before_volume_of_cleanup (c : Call) (h : c.beforeCleanup = false) :
    c.mountedVolume = none ∧ c.describedVolume = none := by
  cases c <;> simp_all [Call.beforeCleanup, Call.mountedVolume, Call.describedVolume]

theorem volumeRange_nat (j n : Nat) (h : 1 ≤ j) :
    volumeRange (j : Int) n = List.range' (j - 1) (n - (j - 1)) := by
  unfold volumeRange
  rw [if_pos (by omega)]
  have e : ((j : Int) - 1).toNat = j - 1 := by omega
  rw [e]

theorem map_succ_range' (n : Nat) :
    ∀ s, (List.range' s n).map (fun v => v + 1) = List.range' (s + 1) n := by
  induction n with
  | zero => intro s; rfl
  | succ n ih =>
    intro s
    simp only [List.range'_succ, List.map_cons, ih]

theorem mountCalls_nil (l : List Call) (h : ∀ c ∈ l, c.mountedVolume = none) :
    mountCalls l = [] := by
  unfold mountCalls
  rw [List.filterMap_eq_nil_iff]
  exact h

theorem mountCalls_append (a b : List Call) :
    mountCalls (a ++ b) = mountCalls a ++ mountCalls b :=
  List.filterMap_append _ _ _

theorem mountCalls_map (vs : List Nat) :
    mountCalls (vs.map Call.VixMntapi_MountVolume) = vs.map fun v => v + 1 := by
  induction vs with
  | nil => rfl
  | cons v rest ih =>
    show (v + 1) :: mountCalls (rest.map Call.VixMntapi_MountVolume) = _
    rw [ih]
    rfl

theorem mountCalls_cleanup (s : MountState) : mountCalls (cleanup s) = [] :=
  mountCalls_nil _ fun c hc => (before_volume_of_cleanup c (cleanup_not_before s c hc)).1

theorem acquire_at_mount (w : World) (disks : List String) (s0 : MountState)
    (h : ReachesMountLoop w disks.length) (h0 : s0.mountedVolumes = []) :
    ∃ (S : MountState) (T : List Call),
      acquire w disks s0 =
        ((({ exit := Exit.fallThrough, st := S, trace := T } : Phase).andThen
          (mountPhase w)).andThen (describePhase w)) ∧
      S.numVolumes = w.numVolumes ∧ S.j = w.startVolume ∧ S.mountedVolumes = [] ∧
      ∀ c ∈ T, c.mountedVolume = none ∧ c.describedVolume = none := by
  rcases acquire_reaches_mount w disks s0 h h0 with ⟨S, T, hX, hrest⟩
  refine ⟨S, T, ?_, hrest⟩
  unfold acquire
  rw [hX]

theorem sampleWorld_reaches (n : Nat) : ReachesMountLoop sampleWorld n :=
  ⟨⟨rfl, rfl, fun _ _ => ⟨rfl, rfl, rfl, rfl⟩⟩, rfl, rfl, rfl⟩

theorem range_split (j v n : Nat) (h1 : 1 ≤ j) (hv1 : j ≤ v + 1) (hv2 : v < n) :
    List.range' (j - 1) (n - (j - 1)) =
      List.range' (j - 1) (v - (j - 1)) ++ v :: List.range' (v + 1) (n - (v + 1)) := by
  have e1 : v :: List.range' (v + 1) (n - (v + 1)) = List.range' v (n - (v + 1) + 1) := by
    rw [List.range'_succ]
  have e2 : v = j - 1 + (v - (j - 1)) := by omega
  rw [e1]
  conv => rhs; arg 2; rw [e2]
  rw [List.range'_append_1]
  congr 1
  omega

theorem closeLoop_congr (s t : MountState) (h1 : t.diskHandles = s.diskHandles)
    (h2 : t.childDisks = s.childDisks) (h3 : t.localConnection = s.localConnection) (n : Nat) :
    ∀ j, closeLoop t n j = closeLoop s n j := by
  induction n with
  | zero => intro j; rfl
  | succ n ih =>
    intro j
    simp only [closeLoop, h1, h2, h3, ih]

theorem digitValue_digitChar (m : Nat) (h : m < 10) : digitValue (Nat.digitChar m) = m := by
  interval_cases m <;> rfl

theorem toDigitsCore_acc (fuel : Nat) :
    ∀ (n : Nat) (ds : List Char),
      Nat.toDigitsCore 10 fuel n ds = Nat.toDigitsCore 10 fuel n [] ++ ds := by
  induction fuel with
  | zero => intro n ds; rfl
  | succ fuel ih =>
    intro n ds
    simp only [Nat.toDigitsCore]
    split
    · rfl
    · rw [ih (n / 10) (Nat.digitChar (n % 10) :: ds), ih (n / 10) [Nat.digitChar (n % 10)]]
      simp

theorem decimalValue_snoc (cs : List Char) (c : Char) :
    decimalValue (cs ++ [c]) = decimalValue cs * 10 + digitValue c := by
  simp [decimalValue, List.foldl_append]

theorem decimalValue_toDigitsCore (fuel : Nat) :
    ∀ n, n < fuel → decimalValue (Nat.toDigitsCore 10 fuel n []) = n := by
  induction fuel with
  | zero => intro n h; omega
  | succ fuel ih =>
    intro n h
    simp only [Nat.toDigitsCore]
    split
    · rename_i h0
      have hn : n < 10 := by omega
      have : decimalValue [Nat.digitChar (n % 10)] = digitValue (Nat.digitChar (n % 10)) := by
        simp [decimalValue]
      rw [this, digitValue_digitChar _ (Nat.mod_lt _ (by decide))]
      omega
    · rename_i h0
      rw [toDigitsCore_acc, decimalValue_snoc, ih (n / 10) (by omega),
        digitValue_digitChar _ (Nat.mod_lt _ (by decide))]
      omega

theorem decimalValue_toString (n : Nat) : decimalValue (toString n).data = n := by
  show decimalValue (Nat.toDigits 10 n) = n
  exact decimalValue_toDigitsCore (n + 1) n (Nat.lt_succ_self n)

theorem childDiskName_injective (buffer : String) (i j : Nat)
    (h : childDiskName buffer i = childDiskName buffer j) : i = j := by
  unfold childDiskName at h
  have hd := congrArg String.data h
  simp only [String.data_append] at hd
  have h1 := List.append_cancel_right hd
  have h2 := List.append_cancel_left h1
  have h3 := congrArg decimalValue h2
  rw [decimalValue_toString, decimalValue_toString] at h3
  omega

theorem childDiskNames_getD (buffer : String) (n i : Nat) (h : i < n) :
    (childDiskNames buffer n).getD i "" = childDiskName buffer i := by
  unfold childDiskNames
  rw [List.getD_eq_getElem?_getD, List.getElem?_map, List.getElem?_range h]
  rfl

theorem numberOfOneBits_rec (n : Nat) :
    numberOfOneBits n = n % 2 + numberOfOneBits (n / 2) := by
  unfold numberOfOneBits
  rcases Nat.eq_zero_or_pos n with h | h
  · subst h; simp
  · rw [Nat.digits_def' (by decide) h]
    simp

theorem and_mod_two_zero (a b : Nat) (h : a % 2 = 0 ∨ b % 2 = 0) : (a &&& b) % 2 = 0 := by
  have h1 : ¬ ((a &&& b) % 2 = 1) := by
    rw [Nat.and_mod_two_eq_one]
    omega
  omega

theorem numberOfOneBits_clear_lowest (n : Nat) :
    0 < n → numberOfOneBits (n &&& (n - 1)) + 1 = numberOfOneBits n := by
  induction n using Nat.strong_induction_on with
  | _ n ih =>
    intro hn
    rw [numberOfOneBits_rec (n &&& (n - 1)), numberOfOneBits_rec n, Nat.and_div_two]
    rcases Nat.mod_two_eq_zero_or_one n with h | h
    · have e1 : (n - 1) / 2 = n / 2 - 1 := by omega
      have e2 : (n &&& (n - 1)) % 2 = 0 := and_mod_two_zero _ _ (Or.inl h)
      rw [e1, e2, h]
      have := ih (n / 2) (by omega) (by omega)
      omega
    · have e1 : (n - 1) / 2 = n / 2 := by omega
      have e2 : (n &&& (n - 1)) % 2 = 0 := and_mod_two_zero _ _ (Or.inr (by omega))
      rw [e1, e2, h, Nat.and_self]
      omega

theorem BitCountLoop_eq (fuel : Nat) :
    ∀ number bits, number < fuel →
      BitCountLoop fuel number bits = some (bits + numberOfOneBits number) := by
  induction fuel with
  | zero => intro number bits h; omega
  | succ fuel ih =>
    intro number bits h
    unfold BitCountLoop
    split
    · rename_i h0
      subst h0
      simp [numberOfOneBits]
    · rename_i h0
      have hle : number &&& (number - 1) ≤ number - 1 := Nat.and_le_right
      rw [ih _ _ (by omega)]
      have := numberOfOneBits_clear_lowest number (by omega)
      congr 1
      omega

theorem BitCount_eq (number : Nat) : BitCount number = some (numberOfOneBits number) := by
  unfold BitCount
  rw [BitCountLoop_eq _ _ _ (Nat.lt_succ_self _)]
  simp

theorem oneValue_next (argc i k : Nat) (g stored g1 : ParseGlobals)
    (h : oneValue argc i g stored = ParseStep.next k g1) : k = 1 ∧ i + 1 ≤ argc - 2 := by
  unfold oneValue at h
  split at h
  · cases h
  · injection h with hk _
    omega

theorem parseArg_next_bound (strtol : String → Int) (argc i k : Nat)
    (g g1 : ParseGlobals) (arg value value2 : String) (hi : i < argc - 1)
    (h : parseArg strtol argc i g arg value value2 = ParseStep.next k g1) :
    i + k ≤ argc - 2 := by
  unfold parseArg at h
  by_cases h1 : arg = "-info"
  · rw [if_pos h1] at h
    injection h with hk _
    omega
  rw [if_neg h1] at h
  by_cases h2 : arg = "-mount"
  · rw [if_pos h2] at h
    injection h with hk _
    omega
  rw [if_neg h2] at h
  by_cases h3 : arg = "-meta"
  · rw [if_pos h3] at h
    injection h with hk _
    omega
  rw [if_neg h3] at h
  by_cases h4 : arg = "-rmeta"
  · rw [if_pos h4] at h
    have := oneValue_next _ _ _ _ _ _ h
    omega
  rw [if_neg h4] at h
  by_cases h5 : arg = "-wmeta"
  · rw [if_pos h5] at h
    split at h
    · cases h
    · injection h with hk _
      omega
  rw [if_neg h5] at h
  by_cases h6 : arg = "-host"
  · rw [if_pos h6] at h
    have := oneValue_next _ _ _ _ _ _ h
    omega
  rw [if_neg h6] at h
  by_cases h7 : arg = "-user"
  · rw [if_pos h7] at h
    have := oneValue_next _ _ _ _ _ _ h
    omega
  rw [if_neg h7] at h
  by_cases h8 : arg = "-password"
  · rw [if_pos h8] at h
    have := oneValue_next _ _ _ _ _ _ h
    omega
  rw [if_neg h8] at h
  by_cases h9 : arg = "-thumb"
  · rw [if_pos h9] at h
    have := oneValue_next _ _ _ _ _ _ h
    omega
  rw [if_neg h9] at h
  by_cases h10 : arg = "-port"
  · rw [if_pos h10] at h
    have := oneValue_next _ _ _ _ _ _ h
    omega
  rw [if_neg h10] at h
  by_cases h11 : arg = "-nfchostport"
  · rw [if_pos h11] at h
    have := oneValue_next _ _ _ _ _ _ h
    omega
  rw [if_neg h11] at h
  by_cases h12 : arg = "-vm"
  · rw [if_pos h12] at h
    have := oneValue_next _ _ _ _ _ _ h
    omega
  rw [if_neg h12] at h
  by_cases h13 : arg = "-libdir"
  · rw [if_pos h13] at h
    have := oneValue_next _ _ _ _ _ _ h
    omega
  rw [if_neg h13] at h
  by_cases h14 : arg = "-initex"
  · rw [if_pos h14] at h
    have := oneValue_next _ _ _ _ _ _ h
    omega
  rw [if_neg h14] at h
  by_cases h15 : arg = "-ssmoref"
  · rw [if_pos h15] at h
    have := oneValue_next _ _ _ _ _ _ h
    omega
  rw [if_neg h15] at h
  by_cases h16 : arg = "-mode"
  · rw [if_pos h16] at h
    have := oneValue_next _ _ _ _ _ _ h
    omega
  rw [if_neg h16] at h
  cases h

theorem parseOption_next_bound (strtol : String → Int) (argv : List String) (argc i k : Nat)
    (g g1 : ParseGlobals) (hi : i < argc - 1)
    (h : parseOption strtol argv argc i g = ParseStep.next k g1) : i + k ≤ argc - 2 :=
  parseArg_next_bound strtol argc i k g g1 _ _ _ hi h

theorem oneValue_command (argc i : Nat) (g stored : ParseGlobals) (c : Nat)
    (h1 : g.command = c) (h2 : stored.command = c) :
    (oneValue argc i g stored).globals.command = c := by
  unfold oneValue
  split
  · exact h1
  · exact h2

theorem withCommand_none (command : Nat) (arg : String) (h1 : ¬ arg = "-info")
    (h2 : ¬ arg = "-mount") (h3 : ¬ arg = "-meta") (h4 : ¬ arg = "-rmeta")
    (h5 : ¬ arg = "-wmeta") : withCommand command arg = command := by
  unfold withCommand commandBit
  rw [if_neg h1, if_neg h5, if_neg h4, if_neg h3, if_neg h2]

theorem parseArg_command (strtol : String → Int) (argc i : Nat) (g : ParseGlobals)
    (arg value value2 : String) :
    (parseArg strtol argc i g arg value value2).globals.command =
      withCommand g.command arg := by
  unfold parseArg
  by_cases h1 : arg = "-info"
  · rw [if_pos h1]
    subst h1
    rfl
  rw [if_neg h1]
  by_cases h2 : arg = "-mount"
  · rw [if_pos h2]
    subst h2
    rfl
  rw [if_neg h2]
  by_cases h3 : arg = "-meta"
  · rw [if_pos h3]
    subst h3
    rfl
  rw [if_neg h3]
  by_cases h4 : arg = "-rmeta"
  · rw [if_pos h4]
    subst h4
    exact oneValue_command _ _ _ _ _ rfl rfl
  rw [if_neg h4]
  by_cases h5 : arg = "-wmeta"
  · rw [if_pos h5]
    subst h5
    split <;> rfl
  rw [if_neg h5]
  by_cases h6 : arg = "-host"
  · rw [if_pos h6]
    rw [withCommand_none g.command arg h1 h2 h3 h4 h5]
    exact oneValue_command _ _ _ _ _ rfl rfl
  rw [if_neg h6]
  by_cases h7 : arg = "-user"
  · rw [if_pos h7]
    rw [withCommand_none g.command arg h1 h2 h3 h4 h5]
    exact oneValue_command _ _ _ _ _ rfl rfl
  rw [if_neg h7]
  by_cases h8 : arg = "-password"
  · rw [if_pos h8]
    rw [withCommand_none g.command arg h1 h2 h3 h4 h5]
    exact oneValue_command _ _ _ _ _ rfl rfl
  rw [if_neg h8]
  by_cases h9 : arg = "-thumb"
  · rw [if_pos h9]
    rw [withCommand_none g.command arg h1 h2 h3 h4 h5]
    exact oneValue_command _ _ _ _ _ rfl rfl
  rw [if_neg h9]
  by_cases h10 : arg = "-port"
  · rw [if_pos h10]
    rw [withCommand_none g.command arg h1 h2 h3 h4 h5]
    exact oneValue_command _ _ _ _ _ rfl rfl
  rw [if_neg h10]
  by_cases h11 : arg = "-nfchostport"
  · rw [if_pos h11]
    rw [withCommand_none g.command arg h1 h2 h3 h4 h5]
    exact oneValue_command _ _ _ _ _ rfl rfl
  rw [if_neg h11]
  by_cases h12 : arg = "-vm"
  · rw [if_pos h12]
    rw [withCommand_none g.command arg h1 h2 h3 h4 h5]
    exact oneValue_command _ _ _ _ _ rfl rfl
  rw [if_neg h12]
  by_cases h13 : arg = "-libdir"
  · rw [if_pos h13]
    rw [withCommand_none g.command arg h1 h2 h3 h4 h5]
    exact oneValue_command _ _ _ _ _ rfl rfl
  rw [if_neg h13]
  by_cases h14 : arg = "-initex"
  · rw [if_pos h14]
    rw [withCommand_none g.command arg h1 h2 h3 h4 h5]
    exact oneValue_command _ _ _ _ _ rfl rfl
  rw [if_neg h14]
  by_cases h15 : arg = "-ssmoref"
  · rw [if_pos h15]
    rw [withCommand_none g.command arg h1 h2 h3 h4 h5]
    exact oneValue_command _ _ _ _ _ rfl rfl
  rw [if_neg h15]
  by_cases h16 : arg = "-mode"
  · rw [if_pos h16]
    rw [withCommand_none g.command arg h1 h2 h3 h4 h5]
    exact oneValue_command _ _ _ _ _ rfl rfl
  rw [if_neg h16]
  rw [withCommand_none g.command arg h1 h2 h3 h4 h5]
  rfl

theorem parseOption_command (strtol : String → Int) (argv : List String) (argc i : Nat)
    (g : ParseGlobals) :
    (parseOption strtol argv argc i g).globals.command =
      withCommand g.command (argv.getD i "") :=
  parseArg_command strtol argc i g _ _ _

theorem scanLoop_ended (strtol : String → Int) (argv : List String) (argc fuel i : Nat)
    (g : ParseGlobals) (h : ¬ i < argc - 1) :
    scanLoop strtol argv argc (fuel + 1) i g =
      { exit := ScanExit.ended, i := i, globals := g, indices := [], options := [],
        values := [] } := by
  rw [scanLoop, if_neg h]

theorem scanLoop_usage (strtol : String → Int) (argv : List String) (argc fuel i : Nat)
    (g g1 : ParseGlobals) (h : i < argc - 1)
    (hs : parseOption strtol argv argc i g = ParseStep.usage g1) :
    scanLoop strtol argv argc (fuel + 1) i g =
      { exit := ScanExit.usage, i := i, globals := g1, indices := [], options := [i],
        values := [] } := by
  rw [scanLoop, if_pos h, hs]

theorem scanLoop_next (strtol : String → Int) (argv : List String) (argc fuel i k : Nat)
    (g g1 : ParseGlobals) (h : i < argc - 1)
    (hs : parseOption strtol argv argc i g = ParseStep.next k g1) :
    scanLoop strtol argv argc (fuel + 1) i g =
      { exit := (scanLoop strtol argv argc fuel (i + k + 1) g1).exit
        i := (scanLoop strtol argv argc fuel (i + k + 1) g1).i
        globals := (scanLoop strtol argv argc fuel (i + k + 1) g1).globals
        indices := List.range' (i + 1) (k + 1) ++
          (scanLoop strtol argv argc fuel (i + k + 1) g1).indices
        options := i :: (scanLoop strtol argv argc fuel (i + k + 1) g1).options
        values := List.range' (i + 1) k ++
          (scanLoop strtol argv argc fuel (i + k + 1) g1).values } := by
  rw [scanLoop, if_pos h, hs]

/-- The scan ends, and its index stays within `1 .. argc - 1`. -/
theorem scanLoop_bounds (strtol : String → Int) (argv : List String) (argc : Nat)
    (fuel : Nat) :
    ∀ (i : Nat) (g : ParseGlobals), i ≤ argc - 1 → argc - 1 - i < fuel →
      (scanLoop strtol argv argc fuel i g).exit ≠ ScanExit.outOfFuel ∧
      (∀ k ∈ (scanLoop strtol argv argc fuel i g).indices, i < k ∧ k ≤ argc - 1) ∧
      (∀ k ∈ (scanLoop strtol argv argc fuel i g).options, i ≤ k ∧ k ≤ argc - 2) ∧
      (∀ k ∈ (scanLoop strtol argv argc fuel i g).values, i < k ∧ k ≤ argc - 2) ∧
      ((scanLoop strtol argv argc fuel i g).exit = ScanExit.ended →
        (scanLoop strtol argv argc fuel i g).i = argc - 1) ∧
      ((scanLoop strtol argv argc fuel i g).exit = ScanExit.usage →
        i ≤ (scanLoop strtol argv argc fuel i g).i ∧
          (scanLoop strtol argv argc fuel i g).i ≤ argc - 2) := by
  induction fuel with
  | zero => intro i g _ h; omega
  | succ fuel ih =>
    intro i g hi hf
    by_cases h : i < argc - 1
    · cases hs : parseOption strtol argv argc i g with
      | usage g1 =>
        rw [scanLoop_usage strtol argv argc fuel i g g1 h hs]
        refine ⟨by simp, by simp, ?_, by simp, by simp, fun _ => ⟨le_refl _, ?_⟩⟩
        · intro k hk
          simp only [List.mem_singleton] at hk
          omega
        · show i ≤ argc - 2
          omega
      | next c g1 =>
        have hb := parseOption_next_bound strtol argv argc i c g g1 h hs
        rw [scanLoop_next strtol argv argc fuel i c g g1 h hs]
        rcases ih (i + c + 1) g1 (by omega) (by omega) with ⟨r1, r2, r3, r4, r5, r6⟩
        refine ⟨r1, ?_, ?_, ?_, r5, ?_⟩
        · intro k hk
          rcases List.mem_append.1 hk with hk | hk
          · rw [List.mem_range'_1] at hk
            omega
          · have := r2 k hk
            omega
        · intro k hk
          rcases List.mem_cons.1 hk with hk | hk
          · omega
          · have := r3 k hk
            omega
        · intro k hk
          rcases List.mem_append.1 hk with hk | hk
          · rw [List.mem_range'_1] at hk
            omega
          · have := r4 k hk
            omega
        · intro he
          refine ⟨?_, (r6 he).2⟩
          have := (r6 he).1
          show i ≤ (scanLoop strtol argv argc fuel (i + c + 1) g1).i
          omega
    · rw [scanLoop_ended strtol argv argc fuel i g h]
      refine ⟨by simp, by simp, by simp, by simp, fun _ => ?_, by simp⟩
      show i = argc - 1
      omega

/-- The command word the scan leaves is the one it started from with the
commands given or-ed in. -/
theorem scanLoop_command (strtol : String → Int) (argv : List String) (argc : Nat)
    (fuel : Nat) :
    ∀ (i : Nat) (g : ParseGlobals),
      (scanLoop strtol argv argc fuel i g).globals.command =
        (commandsGiven argv (scanLoop strtol argv argc fuel i g)).foldl
          (fun c b => c ||| b) g.command := by
  induction fuel with
  | zero => intro i g; rfl
  | succ fuel ih =>
    intro i g
    by_cases h : i < argc - 1
    · have hc := parseOption_command strtol argv argc i g
      cases hs : parseOption strtol argv argc i g with
      | usage g1 =>
        rw [hs] at hc
        rw [scanLoop_usage strtol argv argc fuel i g g1 h hs]
        show g1.command = _
        have hc1 : g1.command = withCommand g.command (argv.getD i "") := hc
        rw [hc1]
        unfold commandsGiven withCommand
        simp only [List.filterMap_cons, List.filterMap_nil]
        cases commandBit (argv.getD i "") <;> rfl
      | next c g1 =>
        rw [hs] at hc
        have hc1 : g1.command = withCommand g.command (argv.getD i "") := hc
        rw [scanLoop_next strtol argv argc fuel i c g g1 h hs]
        show (scanLoop strtol argv argc fuel (i + c + 1) g1).globals.command = _
        rw [ih (i + c + 1) g1, hc1]
        unfold commandsGiven withCommand
        simp only [List.filterMap_cons]
        cases commandBit (argv.getD i "") <;> rfl
    · rw [scanLoop_ended strtol argv argc fuel i g h]
      rfl

theorem checkGlobals_props (s : Scan) (g : ParseGlobals) :
    (checkGlobals s g).scan = some s ∧ (checkGlobals s g).globals = g ∧
      ((checkGlobals s g).retval = 0 → BitCount g.command = some 1) := by
  unfold checkGlobals
  by_cases hb : BitCount g.command ≠ some 1
  · rw [if_pos hb]
    exact ⟨rfl, rfl, fun h0 => by cases h0⟩
  · rw [if_neg hb]
    split
    · exact ⟨rfl, rfl, fun h0 => by cases h0⟩
    · exact ⟨rfl, rfl, fun _ => not_not.1 hb⟩

theorem afterScan_props (argv : List String) (s : Scan) :
    (afterScan argv s).scan = some s ∧
      (afterScan argv s).globals.command = s.globals.command ∧
      (s.exit = ScanExit.ended →
        (afterScan argv s).globals.diskPath = some (argv.getD s.i "")) ∧
      ((afterScan argv s).retval = 0 →
        s.exit = ScanExit.ended ∧ BitCount s.globals.command = some 1) := by
  rcases s with ⟨e, i, g, ix, os, vs⟩
  cases e
  · have hc := checkGlobals_props
      { exit := ScanExit.ended, i := i, globals := g, indices := ix, options := os, values := vs }
      { g with diskPath := some (argv.getD i "") }
    refine ⟨hc.1, ?_, fun _ => ?_, fun h0 => ⟨rfl, hc.2.2 h0⟩⟩
    · show (checkGlobals _ _).globals.command = g.command
      rw [hc.2.1]
    · show (checkGlobals _ _).globals.diskPath = some (argv.getD i "")
      rw [hc.2.1]
  · refine ⟨rfl, rfl, ?_, ?_⟩
    · intro h0; cases h0
    · intro h0
      have h1 : PrintUsage = 0 := h0
      exact absurd h1 (by decide)
  · refine ⟨rfl, rfl, ?_, ?_⟩
    · intro h0; cases h0
    · intro h0
      have h1 : PrintUsage = 0 := h0
      exact absurd h1 (by decide)

theorem ParseArguments_short (strtol : String → Int) (argv : List String)
    (h : argv.length < 3) :
    ParseArguments strtol argv = { retval := PrintUsage, globals := zeroGlobals, scan := none } := by
  unfold ParseArguments
  exact if_pos h

theorem ParseArguments_long (strtol : String → Int) (argv : List String)
    (h : 3 ≤ argv.length) :
    ParseArguments strtol argv =
      afterScan argv (scanLoop strtol argv argv.length argv.length 1 zeroGlobals) := by
  unfold ParseArguments
  exact if_neg (by omega)

theorem commandBit_mem (arg : String) (b : Nat) (h : commandBit arg = some b) :
    b ∈ commandBits := by
  unfold commandBit at h
  unfold commandBits
  split at h
  · injection h with e; subst e; simp
  split at h
  · injection h with e; subst e; simp
  split at h
  · injection h with e; subst e; simp
  split at h
  · injection h with e; subst e; simp
  split at h
  · injection h with e; subst e; simp
  · cases h

theorem commandsGiven_mem (argv : List String) (s : Scan) (b : Nat)
    (h : b ∈ commandsGiven argv s) : b ∈ commandBits := by
  unfold commandsGiven at h
  rcases List.mem_filterMap.1 h with ⟨k, _, hk⟩
  exact commandBit_mem _ b hk

theorem commandBits_lt (b : Nat) (h : b ∈ commandBits) : b < 2 ^ 5 := by
  revert b
  decide

theorem foldl_or_lt (l : List Nat) :
    ∀ c, c < 2 ^ 5 → (∀ b ∈ l, b ∈ commandBits) →
      l.foldl (fun c b => c ||| b) c < 2 ^ 5 := by
  induction l with
  | nil => intro c hc _; exact hc
  | cons x rest ih =>
    intro c hc hl
    exact ih (c ||| x)
      (Nat.or_lt_two_pow hc (commandBits_lt x (hl x (List.mem_cons_self _ _))))
      fun b hb => hl b (List.mem_cons_of_mem _ hb)

theorem or_and_of_and (c x b : Nat) (h : c &&& b = b) : (c ||| x) &&& b = b := by
  apply Nat.eq_of_testBit_eq
  intro i
  have hi := congrArg (fun n => n.testBit i) h
  simp only [Nat.testBit_and] at hi
  simp only [Nat.testBit_and, Nat.testBit_or]
  cases hc : c.testBit i <;> cases hx : x.testBit i <;> cases hb : b.testBit i <;> simp_all

theorem or_and_self (c b : Nat) : (c ||| b) &&& b = b := by
  apply Nat.eq_of_testBit_eq
  intro i
  simp only [Nat.testBit_and, Nat.testBit_or]
  cases c.testBit i <;> cases b.testBit i <;> rfl

theorem foldl_or_contains (l : List Nat) (b : Nat) :
    ∀ c, (b ∈ l ∨ c &&& b = b) → l.foldl (fun c x => c ||| x) c &&& b = b := by
  induction l with
  | nil =>
    intro c h
    rcases h with h | h
    · simp at h
    · exact h
  | cons x rest ih =>
    intro c h
    refine ih (c ||| x) ?_
    rcases h with h | h
    · rcases List.mem_cons.1 h with e | e
      · subst e; exact Or.inr (or_and_self c b)
      · exact Or.inl e
    · exact Or.inr (or_and_of_and c x b h)

theorem commandBits_of_BitCount (c : Nat) (hc : c < 2 ^ 5) (h : BitCount c = some 1) :
    c ∈ commandBits := by
  revert c
  decide

theorem commandBits_disjoint_all :
    ∀ c ∈ commandBits, ∀ b1 ∈ commandBits, ∀ b2 ∈ commandBits,
      c &&& b1 = b1 → c &&& b2 = b2 → b1 = b2 := by
  decide

theorem commandBits_disjoint (c b1 b2 : Nat) (hc : c ∈ commandBits) (h1 : b1 ∈ commandBits)
    (h2 : b2 ∈ commandBits) (e1 : c &&& b1 = b1) (e2 : c &&& b2 = b2) : b1 = b2 :=
  commandBits_disjoint_all c hc b1 h1 b2 h2 e1 e2

/-- On a command line of at least three arguments `ParseArguments` scans the
options; the command word it leaves is the or of the commands given, and it
returns 0 only if `BitCount` of that word is 1. -/
theorem ParseArguments_command (strtol : String → Int) (argv : List String)
    (h : 3 ≤ argv.length) :
    ∃ s, (ParseArguments strtol argv).scan = some s ∧
      (ParseArguments strtol argv).globals.command =
        (commandsGiven argv s).foldl (fun c b => c ||| b) 0 ∧
      ((ParseArguments strtol argv).retval = 0 →
        BitCount (ParseArguments strtol argv).globals.command = some 1) := by
  have hp := afterScan_props argv (scanLoop strtol argv argv.length argv.length 1 zeroGlobals)
  have hc := scanLoop_command strtol argv argv.length argv.length 1 zeroGlobals
  rw [ParseArguments_long strtol argv h]
  refine ⟨_, hp.1, ?_, fun h0 => ?_⟩
  · rw [hp.2.1, hc]
    rfl
  · rw [hp.2.1]
    exact (hp.2.2.2 h0).2

/-- A command line of fewer than three arguments is refused. -/
theorem ParseArguments_short_retval (strtol : String → Int) (argv : List String)
    (h : argv.length < 3) :
    (ParseArguments strtol argv).retval ≠ 0 ∧ (ParseArguments strtol argv).scan = none := by
  rw [ParseArguments_short strtol argv h]
  exact ⟨by decide, rfl⟩

/-- When `ParseArguments` returns 0 the command word is one of the five
command bits. -/
theorem ParseArguments_zero_command (strtol : String → Int) (argv : List String)
    (h0 : (ParseArguments strtol argv).retval = 0) :
    3 ≤ argv.length ∧ BitCount (ParseArguments strtol argv).globals.command = some 1 ∧
      (ParseArguments strtol argv).globals.command ∈ commandBits := by
  by_cases h : argv.length < 3
  · exact absurd h0 (ParseArguments_short_retval strtol argv h).1
  · have h3 : 3 ≤ argv.length := by omega
    rcases ParseArguments_command strtol argv h3 with ⟨s, _, hc, hb⟩
    refine ⟨h3, hb h0, commandBits_of_BitCount _ ?_ (hb h0)⟩
    rw [hc]
    exact foldl_or_lt _ 0 (by decide) fun b hb => commandsGiven_mem argv s b hb

/-- A command name that stands where a value or the disk path is expected is
not read as a command: with `-info -meta` as the whole command line, `-meta`
is the disk path and the command line is accepted. -/
theorem command_name_as_disk_path :
    (ParseArguments sampleStrtol ["vixMntApiSample.exe", "-info", "-meta"]).retval = 0 ∧
      (ParseArguments sampleStrtol ["vixMntApiSample.exe", "-info", "-meta"]).globals.command
        = COMMAND_INFO ∧
      (ParseArguments sampleStrtol ["vixMntApiSample.exe", "-info", "-meta"]).globals.diskPath
        = some "-meta" := by
  decide

/-! ## The claims -/

/-- C1, as stated, fails.  On a run where every call succeeds (one disk, three
volumes mounted from the first) the release calls are not in the layer order
of the specification: `VixMntapi_FreeDiskSetInfo` and
`VixMntapi_FreeVolumeHandles` (disk-set layer) are issued before the volumes
are dismounted. -/
theorem C1_spec_order_violated :
    ¬ InLayerOrder specLayer
      (DoMount sampleGlobals sampleWorld ["[ds] vm/vm.vmdk"]).trace := by
  unfold InLayerOrder
  decide

/-- C1, amended.  For every outcome of the provider calls, the release calls
of `DoMount`, and of `main` around it, are issued in the order: host-alias
removals, then the disk-set info and the volume-handle list are freed, then
every volume-info free and volume dismount, then the disk set is closed, then
every child-disk close, unlink and delete, then the sessions are
disconnected. -/
theorem C1_release_order (g : AppGlobals) (w : World) (disks extraDisks : List String) :
    InLayerOrder codeLayer (DoMount g w disks).trace ∧
      InLayerOrder codeLayer (mainMount g w extraDisks).trace :=
  ⟨DoMount_layers g w disks, mainMount_layers g w extraDisks⟩

/-- C2 fails on the code.  On the run where every provider call returns
`VIX_OK` and the provider reports no symbolic link for the volumes, `DoMount`
is left by the exception of the device-name derivation after the first
`VixMntapi_GetVolumeInfo`: the connection, the child disk, the disk set and
three mounted volumes have been acquired, the cleanup block is entered zero
times and `DoMount` does not return. -/
theorem C2_cleanup_skipped_when_link_is_null :
    (DoMount sampleGlobals nullLinkWorld ["[ds] vm/vm.vmdk"]).trace =
      [Call.VixMntapi_Init, Call.VixDiskLib_Connect_local,
       Call.VixDiskLib_Open_remote 0 "[ds] vm/vm.vmdk", Call.VixDiskLib_GetTransportMode 0,
       Call.VixDiskLib_CreateChild 0 "C:\\vm-12-childDisk-1.vmdk",
       Call.VixDiskLib_Open_child 0 "C:\\vm-12-childDisk-1.vmdk", Call.VixDiskLib_Attach 0,
       Call.VixMntapi_OpenDiskSet [VixDiskLibHandle.child 0] 1,
       Call.VixMntapi_GetDiskSetInfo, Call.VixMntapi_GetVolumeHandles,
       Call.VixMntapi_MountVolume 0, Call.VixMntapi_MountVolume 1,
       Call.VixMntapi_MountVolume 2, Call.VixMntapi_GetVolumeInfo 0] ∧
    (DoMount sampleGlobals nullLinkWorld ["[ds] vm/vm.vmdk"]).trace.count
      Call.printf_CleanupStuff = 0 ∧
    (DoMount sampleGlobals nullLinkWorld ["[ds] vm/vm.vmdk"]).returned = false := by
  decide

/-- On every run that no exception ends, the cleanup block runs exactly once.
For every combination of statuses returned by the provider calls: whenever
`DoMount` returns, its calls are those issued before the `cleanup` label
followed by the cleanup block, which has been entered exactly once (whichever
`CHECK` failed, or none); and `DoMount` does return when `-vm` was given and
every symbolic link is well formed, so that no exception leaves the
function. -/
theorem DoMount_cleanup_once_when_it_returns (g : AppGlobals) (w : World) (disks : List String) :
    ((DoMount g w disks).returned = true →
      (DoMount g w disks).trace.count Call.printf_CleanupStuff = 1 ∧
      ∃ before s, (DoMount g w disks).trace = before ++ cleanup s ∧
        ∀ c ∈ before, c.beforeCleanup = true) ∧
    (∀ spec, g.vmxSpec = some spec → LinksWellFormed w →
      (DoMount g w disks).returned = true) := by
  constructor
  · intro hret
    rcases DoMount_shape g w disks with ⟨h, _⟩ | ⟨_, before, s, e, hb⟩
    · rw [hret] at h; cases h
    · refine ⟨?_, before, s, e, hb⟩
      rw [e, List.count_append, count_cleanup_printf, Nat.add_left_eq_self, List.count_eq_zero]
      intro hm
      have := hb _ hm
      simp [Call.beforeCleanup] at this
  · intro spec hspec hlinks
    rw [DoMount_returned g w disks spec hspec
      (acquire_noRaise w disks _ (Nat.zero_le _) hlinks)]

/-- The run in which `VixMntapi_Init` fails returns after one cleanup. -/
theorem DoMount_cleanup_once_when_it_returns_witness :
    LinksWellFormed initFailsWorld ∧
    (DoMount sampleGlobals initFailsWorld ["[ds] vm/vm.vmdk"]).returned = true ∧
      (DoMount sampleGlobals initFailsWorld ["[ds] vm/vm.vmdk"]).trace.count
        Call.printf_CleanupStuff = 1 ∧
      ∃ before s, (DoMount sampleGlobals initFailsWorld ["[ds] vm/vm.vmdk"]).trace =
          before ++ cleanup s ∧ ∀ c ∈ before, c.beforeCleanup = true :=
  ⟨fun _ _ => ⟨_, rfl, by decide⟩,
    (DoMount_cleanup_once_when_it_returns sampleGlobals initFailsWorld ["[ds] vm/vm.vmdk"]).2
      "moref=vm-12" rfl (fun _ _ => ⟨_, rfl, by decide⟩),
    (DoMount_cleanup_once_when_it_returns sampleGlobals initFailsWorld ["[ds] vm/vm.vmdk"]).1
      ((DoMount_cleanup_once_when_it_returns sampleGlobals initFailsWorld ["[ds] vm/vm.vmdk"]).2
        "moref=vm-12" rfl (fun _ _ => ⟨_, rfl, by decide⟩))⟩

/-- C3.  If provisioning fails at disk `i` (0-based: disks `0 .. i-1` are
complete chains) at any of its four steps, `DoMount` returns after the cleanup
block, in which the child handle of every complete chain is closed and every
child-disk file on which `VixDiskLib_CreateChild` was called (the one of disk
`i` included) is unlinked from the local connection and deleted; counting each
`DeleteFileA` as removing its file, no child-disk file is left. -/
theorem C3_failed_provisioning_releases_children (g : AppGlobals) (w : World)
    (disks : List String) (spec : String) (i : Nat) (hspec : g.vmxSpec = some spec)
    (hf : ProvisioningFailsAt w disks.length i) :
    (DoMount g w disks).returned = true ∧
      ∃ before s, (DoMount g w disks).trace = before ++ cleanup s ∧
        (∀ c ∈ before, c.beforeCleanup = true) ∧
        (∀ k, k < i → Call.VixDiskLib_Close (VixDiskLibHandle.child k) ∈ cleanup s) ∧
        (∀ k p, Call.VixDiskLib_CreateChild k p ∈ before →
          Call.VixDiskLib_Unlink VixDiskLibConnection.localHost p ∈ cleanup s ∧
            Call.DeleteFileA p ∈ cleanup s) ∧
        storageAfter (DoMount g w disks).trace [] = [] := by
  rcases provisioning_fails_run g w disks spec i hspec hf with
    ⟨P, hret, htr, hidx, hcount, hconn, hh⟩
  have hi : i < disks.length := hf.2.2.1
  have hdel : ∀ k p, Call.VixDiskLib_CreateChild k p ∈
      [Call.VixMntapi_Init, Call.VixDiskLib_Connect_local] ++ P.trace →
      Call.VixDiskLib_Unlink VixDiskLibConnection.localHost p ∈ cleanup P.st ∧
        Call.DeleteFileA p ∈ cleanup P.st := by
    intro k p hm
    rcases List.mem_append.1 hm with hm | hm
    · simp at hm
    rcases hidx _ hm with ⟨k3, _, hk3, hp⟩
    rcases hp k p rfl with ⟨hlt, hpath⟩
    constructor
    · rw [mem_cleanup]
      refine Or.inr (Or.inr (Or.inr (Or.inr (Or.inr (Or.inl ?_)))))
      rw [mem_closeLoop]
      exact ⟨k3, Nat.zero_le _, by omega, Or.inr (Or.inl (by rw [hconn, hpath]))⟩
    · rw [mem_cleanup]
      refine Or.inr (Or.inr (Or.inr (Or.inr (Or.inr (Or.inl ?_)))))
      rw [mem_closeLoop]
      exact ⟨k3, Nat.zero_le _, by omega, Or.inr (Or.inr (by rw [hpath]))⟩
  refine ⟨hret, _, P.st, htr, ?_, ?_, hdel, ?_⟩
  · intro c hc
    rcases List.mem_append.1 hc with h | h
    · simp only [List.mem_cons, List.not_mem_nil, or_false] at h
      rcases h with h | h <;> subst h <;> rfl
    · rcases hidx c h with ⟨k, hk, _⟩
      exact diskIndex_before c k hk
  · intro k hk
    rw [mem_cleanup]
    refine Or.inr (Or.inr (Or.inr (Or.inr (Or.inr (Or.inl ?_)))))
    rw [mem_closeLoop]
    exact ⟨k, Nat.zero_le _, by omega, Or.inl (by rw [hh k hk])⟩
  · rw [htr]
    exact storageAfter_empty _ _ fun k p h => (hdel k p h).2

/-- Witness of C3: two disks, the attach of the second one fails. -/
theorem C3_failed_provisioning_releases_children_witness :
    ProvisioningFailsAt attachFailsWorld 2 1 ∧
    ((DoMount sampleGlobals attachFailsWorld ["[ds] vm/a.vmdk", "[ds] vm/b.vmdk"]).returned
        = true ∧
      ∃ before s,
        (DoMount sampleGlobals attachFailsWorld ["[ds] vm/a.vmdk", "[ds] vm/b.vmdk"]).trace
          = before ++ cleanup s ∧
        (∀ c ∈ before, c.beforeCleanup = true) ∧
        (∀ k, k < 1 → Call.VixDiskLib_Close (VixDiskLibHandle.child k) ∈ cleanup s) ∧
        (∀ k p, Call.VixDiskLib_CreateChild k p ∈ before →
          Call.VixDiskLib_Unlink VixDiskLibConnection.localHost p ∈ cleanup s ∧
            Call.DeleteFileA p ∈ cleanup s) ∧
        storageAfter
          (DoMount sampleGlobals attachFailsWorld ["[ds] vm/a.vmdk", "[ds] vm/b.vmdk"]).trace []
          = []) :=
  ⟨attachFailsWorld_fails,
    C3_failed_provisioning_releases_children sampleGlobals attachFailsWorld
      ["[ds] vm/a.vmdk", "[ds] vm/b.vmdk"] "moref=vm-12" 1 rfl attachFailsWorld_fails⟩

/-- C4.  Provisioning is all-or-nothing.  If a provisioning step fails for
disk `i`, no call is made for a later disk, `VixMntapi_OpenDiskSet` is never
called and no volume is mounted.  If all disks are provisioned and
`VixMntapi_OpenDiskSet` fails, the failed call is followed at once by the
cleanup block: no volume handle is fetched and no volume is mounted. -/
theorem C4_provisioning_all_or_nothing (g : AppGlobals) (w : World) (disks : List String)
    (spec : String) (hspec : g.vmxSpec = some spec) :
    (∀ i, ProvisioningFailsAt w disks.length i →
      (∀ c ∈ (DoMount g w disks).trace, ∀ k, c.diskIndex = some k → k ≤ i) ∧
      (∀ hs n, Call.VixMntapi_OpenDiskSet hs n ∉ (DoMount g w disks).trace) ∧
      (∀ v, Call.VixMntapi_MountVolume v ∉ (DoMount g w disks).trace)) ∧
    (ProvisioningSucceeds w disks.length → VIX_FAILED w.openDiskSet = true →
      (DoMount g w disks).returned = true ∧
      (∃ before s, (DoMount g w disks).trace =
          before ++ [Call.VixMntapi_OpenDiskSet s.diskHandles disks.length] ++ cleanup s ∧
        ∀ c ∈ before, c = Call.VixMntapi_Init ∨ c = Call.VixDiskLib_Connect_local ∨
          ∃ k, c.diskIndex = some k) ∧
      Call.VixMntapi_GetVolumeHandles ∉ (DoMount g w disks).trace ∧
      (∀ v, Call.VixMntapi_MountVolume v ∉ (DoMount g w disks).trace)) := by
  constructor
  · intro i hf
    rcases provisioning_fails_run g w disks spec i hspec hf with ⟨P, _, htr, hidx, _, _, _⟩
    have key : ∀ c ∈ (DoMount g w disks).trace,
        c = Call.VixMntapi_Init ∨ c = Call.VixDiskLib_Connect_local ∨
          (∃ k, c.diskIndex = some k ∧ k ≤ i) ∨ c.beforeCleanup = false := by
      intro c hc
      rw [htr] at hc
      rcases List.mem_append.1 hc with h | h
      · rcases List.mem_append.1 h with h | h
        · simp only [List.mem_cons, List.not_mem_nil, or_false] at h
          rcases h with h | h
          · exact Or.inl h
          · exact Or.inr (Or.inl h)
        · rcases hidx c h with ⟨k, h1, h2, _⟩
          exact Or.inr (Or.inr (Or.inl ⟨k, h1, h2⟩))
      · exact Or.inr (Or.inr (Or.inr (cleanup_not_before _ c h)))
    refine ⟨?_, ?_, ?_⟩
    · intro c hc k hk
      rcases key c hc with h | h | ⟨k2, h1, h2⟩ | h
      · subst h; simp [Call.diskIndex] at hk
      · subst h; simp [Call.diskIndex] at hk
      · rw [h1] at hk; injection hk with e; omega
      · rw [diskIndex_before c k hk] at h; cases h
    · intro hs n hc
      rcases key _ hc with h | h | ⟨k2, h1, _⟩ | h
      · cases h
      · cases h
      · simp [Call.diskIndex] at h1
      · simp [Call.beforeCleanup] at h
    · intro v hc
      rcases key _ hc with h | h | ⟨k2, h1, _⟩ | h
      · cases h
      · cases h
      · simp [Call.diskIndex] at h1
      · simp [Call.beforeCleanup] at h
  · intro hp hf
    rcases openDiskSet_fails_run g w disks spec hspec hp hf with ⟨P, hret, htr, hidx⟩
    have key : ∀ c ∈ (DoMount g w disks).trace,
        c = Call.VixMntapi_Init ∨ c = Call.VixDiskLib_Connect_local ∨
          (∃ k, c.diskIndex = some k) ∨ (∃ hs n, c = Call.VixMntapi_OpenDiskSet hs n) ∨
          c.beforeCleanup = false := by
      intro c hc
      rw [htr] at hc
      rcases List.mem_append.1 hc with h | h
      · rcases List.mem_append.1 h with h | h
        · rcases List.mem_append.1 h with h | h
          · simp only [List.mem_cons, List.not_mem_nil, or_false] at h
            rcases h with h | h
            · exact Or.inl h
            · exact Or.inr (Or.inl h)
          · exact Or.inr (Or.inr (Or.inl (hidx c h)))
        · exact Or.inr (Or.inr (Or.inr (Or.inl ⟨_, _, List.mem_singleton.1 h⟩)))
      · exact Or.inr (Or.inr (Or.inr (Or.inr (cleanup_not_before _ c h))))
    refine ⟨hret, ⟨_, _, htr, ?_⟩, ?_, ?_⟩
    · intro c hc
      rcases List.mem_append.1 hc with h | h
      · simp only [List.mem_cons, List.not_mem_nil, or_false] at h
        rcases h with h | h
        · exact Or.inl h
        · exact Or.inr (Or.inl h)
      · exact Or.inr (Or.inr (hidx c h))
    · intro hc
      rcases key _ hc with h | h | ⟨k2, h1⟩ | ⟨_, _, h⟩ | h
      · cases h
      · cases h
      · simp [Call.diskIndex] at h1
      · cases h
      · simp [Call.beforeCleanup] at h
    · intro v hc
      rcases key _ hc with h | h | ⟨k2, h1⟩ | ⟨_, _, h⟩ | h
      · cases h
      · cases h
      · simp [Call.diskIndex] at h1
      · cases h
      · simp [Call.beforeCleanup] at h

/-- Witness of C4: with two disks the attach of the second fails; with one
disk `VixMntapi_OpenDiskSet` fails. -/
theorem C4_provisioning_all_or_nothing_witness :
    ((∀ c ∈ (DoMount sampleGlobals attachFailsWorld
          ["[ds] vm/a.vmdk", "[ds] vm/b.vmdk"]).trace, ∀ k, c.diskIndex = some k → k ≤ 1) ∧
      (∀ hs n, Call.VixMntapi_OpenDiskSet hs n ∉
        (DoMount sampleGlobals attachFailsWorld ["[ds] vm/a.vmdk", "[ds] vm/b.vmdk"]).trace) ∧
      (∀ v, Call.VixMntapi_MountVolume v ∉
        (DoMount sampleGlobals attachFailsWorld ["[ds] vm/a.vmdk", "[ds] vm/b.vmdk"]).trace)) ∧
    ((DoMount sampleGlobals openDiskSetFailsWorld ["[ds] vm/a.vmdk"]).returned = true ∧
      (∃ before s, (DoMount sampleGlobals openDiskSetFailsWorld ["[ds] vm/a.vmdk"]).trace =
          before ++ [Call.VixMntapi_OpenDiskSet s.diskHandles 1] ++ cleanup s ∧
        ∀ c ∈ before, c = Call.VixMntapi_Init ∨ c = Call.VixDiskLib_Connect_local ∨
          ∃ k, c.diskIndex = some k) ∧
      Call.VixMntapi_GetVolumeHandles ∉
        (DoMount sampleGlobals openDiskSetFailsWorld ["[ds] vm/a.vmdk"]).trace ∧
      (∀ v, Call.VixMntapi_MountVolume v ∉
        (DoMount sampleGlobals openDiskSetFailsWorld ["[ds] vm/a.vmdk"]).trace)) :=
  ⟨(C4_provisioning_all_or_nothing sampleGlobals attachFailsWorld
      ["[ds] vm/a.vmdk", "[ds] vm/b.vmdk"] "moref=vm-12" rfl).1 1 attachFailsWorld_fails,
    (C4_provisioning_all_or_nothing sampleGlobals openDiskSetFailsWorld
      ["[ds] vm/a.vmdk"] "moref=vm-12" rfl).2 openDiskSetFailsWorld_provisions rfl⟩

/-- C7, as stated, fails.  With two volumes mounted from the first, the mount
of the first volume fails with status 1 (not the already-mounted status), and
`VixMntapi_MountVolume` is never called on the second volume although it is in
the range. -/
theorem C7_remaining_volumes_not_mounted :
    MountFatal mountFailsWorld 0 ∧
    1 ∈ volumeRange mountFailsWorld.startVolume mountFailsWorld.numVolumes ∧
    Call.VixMntapi_MountVolume 1 ∉
      (DoMount sampleGlobals mountFailsWorld ["[ds] vm/a.vmdk"]).trace :=
  ⟨⟨by decide, rfl⟩, by decide, by decide⟩

/-- C7, amended.  If mounting volume index `v` of the range (1-based volume
`v + 1`) fails with a status other than already-mounted, after the earlier
volumes of the range were mounted, the `CHECK` sends `DoMount` to `cleanup`:
`VixMntapi_MountVolume` has been called on volumes `j .. v + 1` only, no volume
is described, nothing is recorded in `mountedVolumes`, and the function
returns through the cleanup block. -/
theorem C7_mount_failure_goes_to_cleanup (g : AppGlobals) (w : World) (disks : List String)
    (spec : String) (j v : Nat) (hspec : g.vmxSpec = some spec)
    (hreach : ReachesMountLoop w disks.length) (hj : w.startVolume = (j : Int)) (h1 : 1 ≤ j)
    (hv1 : j ≤ v + 1) (hv2 : v < w.numVolumes)
    (hbefore : ∀ u, j ≤ u + 1 → u < v → MountOk w u) (hfatal : MountFatal w v) :
    (DoMount g w disks).exit = Exit.failedCheck ∧ (DoMount g w disks).returned = true ∧
      mountCalls (DoMount g w disks).trace = List.range' j (v + 2 - j) ∧
      (∀ c ∈ (DoMount g w disks).trace, c.describedVolume = none) ∧
      (DoMount g w disks).st.mountedVolumes = [] := by
  rcases acquire_at_mount w disks (initialState (vmIdentifier w.bufferGarbage spec) disks)
    hreach rfl with ⟨S, T, hacq, hn, hjj, hmv, hT⟩
  have hR : volumeRange S.j S.numVolumes =
      List.range' (j - 1) (v - (j - 1)) ++ v :: List.range' (v + 1) (w.numVolumes - (v + 1)) := by
    rw [hn, hjj, hj, volumeRange_nat j _ h1, range_split j v _ h1 hv1 hv2]
  have hmap : (List.range' (j - 1) (v - (j - 1)) ++ [v]).map (fun u => u + 1) =
      List.range' j (v + 2 - j) := by
    have e0 : [v] = List.range' (j - 1 + (v - (j - 1))) 1 := by
      have : j - 1 + (v - (j - 1)) = v := by omega
      rw [this]; rfl
    rw [e0, List.range'_append_1, map_succ_range']
    have e1 : j - 1 + 1 = j := by omega
    have e2 : 1 + (v - (j - 1)) = v + 2 - j := by omega
    rw [e1, e2]
  have hM : mountPhase w S =
      { exit := Exit.failedCheck, st := S
        trace := (List.range' (j - 1) (v - (j - 1)) ++ [v]).map
          Call.VixMntapi_MountVolume } := by
    unfold mountPhase
    rw [hR]
    refine mountLoop_fatal w _ v _ S (fun u hu => ?_) hfatal
    rw [List.mem_range'_1] at hu
    exact hbefore u (by omega) (by omega)
  rw [andThen_fall _ (mountPhase w) rfl] at hacq
  simp only at hacq
  rw [hM, andThen_stop _ (describePhase w) (by simp)] at hacq
  rw [DoMount_returned g w disks spec hspec (by rw [hacq]; simp), hacq]
  refine ⟨rfl, rfl, ?_, ?_, hmv⟩
  · simp only
    rw [mountCalls_append, mountCalls_append, mountCalls_map, hmap,
      mountCalls_nil T fun c hc => (hT c hc).1, mountCalls_cleanup]
    simp
  · intro c hc
    simp only at hc
    rcases List.mem_append.1 hc with h | h
    · rcases List.mem_append.1 h with h | h
      · exact (hT c h).2
      · rcases List.mem_map.1 h with ⟨u, _, e⟩
        rw [← e]; rfl
    · exact (before_volume_of_cleanup c (cleanup_not_before S c h)).2

/-- Witness of C7 (amended): two volumes, the mount of the first one fails. -/
theorem C7_mount_failure_goes_to_cleanup_witness :
    MountFatal mountFailsWorld 0 ∧
    (DoMount sampleGlobals mountFailsWorld ["[ds] vm/a.vmdk"]).exit = Exit.failedCheck ∧
    (DoMount sampleGlobals mountFailsWorld ["[ds] vm/a.vmdk"]).returned = true ∧
    mountCalls (DoMount sampleGlobals mountFailsWorld ["[ds] vm/a.vmdk"]).trace = [1] ∧
    (∀ c ∈ (DoMount sampleGlobals mountFailsWorld ["[ds] vm/a.vmdk"]).trace,
      c.describedVolume = none) ∧
    (DoMount sampleGlobals mountFailsWorld ["[ds] vm/a.vmdk"]).st.mountedVolumes = [] :=
  ⟨⟨by decide, rfl⟩,
    C7_mount_failure_goes_to_cleanup sampleGlobals mountFailsWorld ["[ds] vm/a.vmdk"]
      "moref=vm-12" 1 0 rfl (sampleWorld_reaches 1) rfl (by decide) (by decide) (by decide)
      (fun u _ hu => absurd hu (Nat.not_lt_zero u)) ⟨by decide, rfl⟩⟩

/-- C8 fails on the code.  A mount run in which the remote open of the
requested disk fails: a `CHECK` of `DoMount` fails, yet `main` returns 0. -/
theorem C8_exit_status_zero_after_failed_mount :
    VIX_FAILED (openFailsWorld.openRemote 0) = true ∧
    (DoMount sampleGlobals openFailsWorld [sampleGlobals.diskPath]).exit = Exit.failedCheck ∧
    (mainMount sampleGlobals openFailsWorld []).retval = some 0 := by
  decide

/-- C9, as stated, fails.  After a run in which everything succeeds, a second
teardown on the state left by `DoMount` closes the child handle, dismounts the
first volume handle and closes the disk set again: over both runs each of
these release calls is issued twice. -/
theorem C9_second_teardown_releases_again :
    ((DoMount sampleGlobals sampleWorld ["[ds] vm/a.vmdk"]).trace ++
        (Teardown (DoMount sampleGlobals sampleWorld ["[ds] vm/a.vmdk"]).st).2).count
      (Call.VixDiskLib_Close (VixDiskLibHandle.child 0)) = 2 ∧
    ((DoMount sampleGlobals sampleWorld ["[ds] vm/a.vmdk"]).trace ++
        (Teardown (DoMount sampleGlobals sampleWorld ["[ds] vm/a.vmdk"]).st).2).count
      (Call.VixMntapi_DismountVolume (some 0)) = 2 ∧
    ((DoMount sampleGlobals sampleWorld ["[ds] vm/a.vmdk"]).trace ++
        (Teardown (DoMount sampleGlobals sampleWorld ["[ds] vm/a.vmdk"]).st).2).count
      (Call.VixMntapi_CloseDiskSet Ptr.obtained) = 2 := by
  decide

/-- C9, amended.  The teardown sequence clears nothing: it leaves
`mountedVolumes`, `mountedDisks`, `diskHandles` and the pointers it frees as
they were (only the loop counter `j` is written), so a second run on the state
left by the first issues exactly the same release calls again. -/
theorem C9_teardown_repeats_its_calls (s : MountState) :
    (Teardown s).1 = { s with j := (s.diskHandlesCount : Int) } ∧
      (Teardown (Teardown s).1).2 = (Teardown s).2 := by
  refine ⟨rfl, ?_⟩
  show cleanup { s with j := (s.diskHandlesCount : Int) } = cleanup s
  unfold cleanup
  simp only
  rw [closeLoop_congr s { s with j := (s.diskHandlesCount : Int) } rfl rfl rfl]

/-- C10 fails on the code.  When the remote open of the only requested disk
fails, the cleanup block calls `VixMntapi_FreeDiskSetInfo` with the null
disk-set info and `VixDiskLib_Close` with the null entry of `diskHandles`;
when the local connect fails it calls `VixDiskLib_Disconnect` (and
`VixDiskLib_Unlink`) with the null local connection; when `VixMntapi_Init`
fails, with the not yet initialised one. -/
theorem C10_release_calls_on_null_resources :
    (Call.VixMntapi_FreeDiskSetInfo Ptr.null ∈
        (DoMount sampleGlobals openFailsWorld ["[ds] vm/a.vmdk"]).trace ∧
      Call.VixDiskLib_Close VixDiskLibHandle.null ∈
        (DoMount sampleGlobals openFailsWorld ["[ds] vm/a.vmdk"]).trace) ∧
    (Call.VixDiskLib_Disconnect VixDiskLibConnection.null ∈
        (DoMount sampleGlobals connectFailsWorld ["[ds] vm/a.vmdk"]).trace ∧
      Call.VixDiskLib_Unlink VixDiskLibConnection.null "C:\\vm-12-childDisk-1.vmdk" ∈
        (DoMount sampleGlobals connectFailsWorld ["[ds] vm/a.vmdk"]).trace) ∧
    Call.VixDiskLib_Disconnect VixDiskLibConnection.indeterminate ∈
      (DoMount sampleGlobals initFailsWorld ["[ds] vm/a.vmdk"]).trace := by
  decide

/-- C11 fails on the code.  On the run where every call succeeds (three volumes
mounted and described from the first), the entries of `mountedVolumes` pair the
info of each volume with the handle of the volume described before it, the
first one with the null handle; teardown therefore calls
`VixMntapi_DismountVolume` on the null handle and never on the handle of the
last volume, although that volume was mounted. -/
theorem C11_recorded_handles_are_shifted :
    (DoMount sampleGlobals sampleWorld ["[ds] vm/a.vmdk"]).st.mountedVolumes =
      [{ volumeHandle := none, volInfo := some 0 },
       { volumeHandle := some 0, volInfo := some 1 },
       { volumeHandle := some 1, volInfo := some 2 }] ∧
    Call.VixMntapi_MountVolume 2 ∈ (DoMount sampleGlobals sampleWorld ["[ds] vm/a.vmdk"]).trace ∧
    Call.VixMntapi_DismountVolume none ∈
      (DoMount sampleGlobals sampleWorld ["[ds] vm/a.vmdk"]).trace ∧
    Call.VixMntapi_DismountVolume (some 2) ∉
      (DoMount sampleGlobals sampleWorld ["[ds] vm/a.vmdk"]).trace := by
  decide

/-- C12 fails on the code.  With two disks, the attach of the second one fails
after its remote handle and its child handle were opened; `DoMount` returns
without a `VixDiskLib_Close` on either of them (the only handle closed is the
child handle of the first disk). -/
theorem C12_handles_of_failing_disk_left_open :
    (DoMount sampleGlobals attachFailsWorld ["[ds] vm/a.vmdk", "[ds] vm/b.vmdk"]).returned
      = true ∧
    Call.VixDiskLib_Open_remote 1 "[ds] vm/b.vmdk" ∈
      (DoMount sampleGlobals attachFailsWorld ["[ds] vm/a.vmdk", "[ds] vm/b.vmdk"]).trace ∧
    Call.VixDiskLib_Open_child 1 "C:\\vm-12-childDisk-2.vmdk" ∈
      (DoMount sampleGlobals attachFailsWorld ["[ds] vm/a.vmdk", "[ds] vm/b.vmdk"]).trace ∧
    Call.VixDiskLib_Close (VixDiskLibHandle.remote 1) ∉
      (DoMount sampleGlobals attachFailsWorld ["[ds] vm/a.vmdk", "[ds] vm/b.vmdk"]).trace ∧
    Call.VixDiskLib_Close (VixDiskLibHandle.child 1) ∉
      (DoMount sampleGlobals attachFailsWorld ["[ds] vm/a.vmdk", "[ds] vm/b.vmdk"]).trace := by
  decide

/-- C14 fails on the code.  When every call succeeds and the symbolic link of
the first described volume is null, or has three characters, the device-name
derivation raises: `DoMount` does not return, the remaining volumes are not
described and the cleanup block is never entered. -/
theorem C14_malformed_link_aborts_DoMount :
    ((DoMount sampleGlobals nullLinkWorld ["[ds] vm/a.vmdk"]).returned = false ∧
      Call.VixMntapi_GetVolumeInfo 1 ∉
        (DoMount sampleGlobals nullLinkWorld ["[ds] vm/a.vmdk"]).trace ∧
      Call.printf_CleanupStuff ∉ (DoMount sampleGlobals nullLinkWorld ["[ds] vm/a.vmdk"]).trace) ∧
    ((DoMount sampleGlobals shortLinkWorld ["[ds] vm/a.vmdk"]).returned = false ∧
      Call.VixMntapi_GetVolumeInfo 1 ∉
        (DoMount sampleGlobals shortLinkWorld ["[ds] vm/a.vmdk"]).trace ∧
      Call.printf_CleanupStuff ∉
        (DoMount sampleGlobals shortLinkWorld ["[ds] vm/a.vmdk"]).trace) := by
  decide

/-- C15 fails on the code.  When `CreateFileW` fails on the aliased volume,
the alias that `DefineDosDeviceW` defined is not removed: on a run with three
volumes the alias is defined three times and `DoMount` returns without a
single removal. -/
theorem C15_alias_left_when_CreateFileW_fails :
    (DoMount sampleGlobals createFileFailsWorld ["[ds] vm/a.vmdk"]).returned = true ∧
    (DoMount sampleGlobals createFileFailsWorld ["[ds] vm/a.vmdk"]).trace.countP
      Call.isAliasDefine = 3 ∧
    (DoMount sampleGlobals createFileFailsWorld ["[ds] vm/a.vmdk"]).trace.countP
      Call.isAliasRemove = 0 := by
  decide

/-- C13.  For every VM identifier left in `buffer` and every list of requested
disks, `DoMount` generates exactly one child-disk path per requested disk; the
path at position `i` is `C:\`, the identifier, `-childDisk-`, the decimal
numeral of `i + 1` and `.vmdk`; and the paths at two distinct positions
differ. -/
theorem C13_child_disk_paths_distinct (buffer : String) (disks : List String) (i j : Nat)
    (hi : i < disks.length) (hj : j < disks.length) (hij : i ≠ j) :
    (initialState buffer disks).childDisks.length = disks.length ∧
      (initialState buffer disks).childDisks.getD i "" =
        "C:\\" ++ buffer ++ "-childDisk-" ++ toString (i + 1) ++ ".vmdk" ∧
      decimalValue (toString (i + 1)).data = i + 1 ∧
      (initialState buffer disks).childDisks.getD i "" ≠
        (initialState buffer disks).childDisks.getD j "" := by
  have e : (initialState buffer disks).childDisks = childDiskNames buffer disks.length := rfl
  rw [e, childDiskNames_getD buffer _ i hi, childDiskNames_getD buffer _ j hj]
  refine ⟨?_, rfl, decimalValue_toString _, fun h => hij (childDiskName_injective buffer i j h)⟩
  simp [childDiskNames]

/-- Witness of C13: identifier `vm-12`, two requested disks. -/
theorem C13_child_disk_paths_distinct_witness :
    (initialState "vm-12" ["[ds] vm/a.vmdk", "[ds] vm/b.vmdk"]).childDisks.length = 2 ∧
      (initialState "vm-12" ["[ds] vm/a.vmdk", "[ds] vm/b.vmdk"]).childDisks.getD 0 "" =
        "C:\\" ++ "vm-12" ++ "-childDisk-" ++ toString (0 + 1) ++ ".vmdk" ∧
      decimalValue (toString (0 + 1)).data = 0 + 1 ∧
      (initialState "vm-12" ["[ds] vm/a.vmdk", "[ds] vm/b.vmdk"]).childDisks.getD 0 "" ≠
        (initialState "vm-12" ["[ds] vm/a.vmdk", "[ds] vm/b.vmdk"]).childDisks.getD 1 "" :=
  C13_child_disk_paths_distinct "vm-12" ["[ds] vm/a.vmdk", "[ds] vm/b.vmdk"] 0 1
    (by decide) (by decide) (by decide)

/-- C17.  For every argument vector with `argc ≥ 3`, the scan of
`ParseArguments` comes to an end, and every value the index `i` takes after
the initial 1 lies in `1 .. argc - 1`; no position read as an option value is
past `argc - 2`, so the last argument is never consumed as a value; every
`argv` access is below `argc`; and when the loop ends (no `return` from its
body) the index equals `argc - 1` and `diskPath` is `argv[argc - 1]`. -/
theorem C17_scan_index_in_range (strtol : String → Int) (argv : List String)
    (h : 3 ≤ argv.length) :
    ∃ s, (ParseArguments strtol argv).scan = some s ∧ s.exit ≠ ScanExit.outOfFuel ∧
      (∀ k ∈ s.indices, 1 ≤ k ∧ k ≤ argv.length - 1) ∧
      (∀ k ∈ s.values, k ≤ argv.length - 2) ∧
      (∀ k ∈ s.accesses, k < argv.length) ∧
      (s.exit = ScanExit.ended →
        s.i = argv.length - 1 ∧
          (ParseArguments strtol argv).globals.diskPath =
            some (argv.getD (argv.length - 1) "")) := by
  rcases scanLoop_bounds strtol argv argv.length argv.length 1 zeroGlobals (by omega) (by omega)
    with ⟨r1, r2, r3, r4, r5, _⟩
  have hp := afterScan_props argv (scanLoop strtol argv argv.length argv.length 1 zeroGlobals)
  rw [ParseArguments_long strtol argv h]
  refine ⟨_, hp.1, r1, ?_, ?_, ?_, ?_⟩
  · intro k hk
    have := r2 k hk
    omega
  · intro k hk
    exact (r4 k hk).2
  · intro k hk
    unfold Scan.accesses at hk
    rcases List.mem_append.1 hk with hk | hk
    · rcases List.mem_append.1 hk with hk | hk
      · have := r3 k hk
        omega
      · have := r4 k hk
        omega
    · split at hk
      · rename_i he
        rw [List.mem_singleton.1 hk, r5 he]
        omega
      · simp at hk
  · intro he
    refine ⟨r5 he, ?_⟩
    rw [hp.2.2.1 he, r5 he]

/-- Witness of C17: a mount command line of eleven arguments; the scan ends
with the index at 10 and `diskPath` is the last argument. -/
theorem C17_scan_index_in_range_witness :
    ∃ s, (ParseArguments sampleStrtol mountArgv).scan = some s ∧
      s.exit ≠ ScanExit.outOfFuel ∧
      (∀ k ∈ s.indices, 1 ≤ k ∧ k ≤ mountArgv.length - 1) ∧
      (∀ k ∈ s.values, k ≤ mountArgv.length - 2) ∧
      (∀ k ∈ s.accesses, k < mountArgv.length) ∧
      (s.exit = ScanExit.ended →
        s.i = mountArgv.length - 1 ∧
          (ParseArguments sampleStrtol mountArgv).globals.diskPath =
            some (mountArgv.getD (mountArgv.length - 1) "")) :=
  C17_scan_index_in_range sampleStrtol mountArgv (by decide)

/-- C16.  `BitCount` returns the number of 1 bits of its argument.  For every
argument vector: when `ParseArguments` returns 0, exactly one bit of
`appGlobals.command` is set and the word is one of the five command bits; and
`ParseArguments` returns non-zero when the command line is too short to be
scanned, when no command is given among the options scanned, and when two
different commands are given among them. -/
theorem C16_exactly_one_command (strtol : String → Int) (argv : List String) :
    (∀ n, BitCount n = some (numberOfOneBits n)) ∧
    ((ParseArguments strtol argv).retval = 0 →
      numberOfOneBits (ParseArguments strtol argv).globals.command = 1 ∧
        (ParseArguments strtol argv).globals.command ∈ commandBits) ∧
    ((ParseArguments strtol argv).scan = none → (ParseArguments strtol argv).retval ≠ 0) ∧
    (∀ s, (ParseArguments strtol argv).scan = some s → commandsGiven argv s = [] →
      (ParseArguments strtol argv).retval ≠ 0) ∧
    (∀ s b1 b2, (ParseArguments strtol argv).scan = some s →
      b1 ∈ commandsGiven argv s → b2 ∈ commandsGiven argv s → b1 ≠ b2 →
      (ParseArguments strtol argv).retval ≠ 0) := by
  refine ⟨BitCount_eq, fun h0 => ?_, fun hn h0 => ?_, fun s hs he h0 => ?_,
    fun s b1 b2 hs h1 h2 hne h0 => ?_⟩
  · rcases ParseArguments_zero_command strtol argv h0 with ⟨_, hb, hm⟩
    rw [BitCount_eq] at hb
    exact ⟨Option.some.inj hb, hm⟩
  · rcases ParseArguments_zero_command strtol argv h0 with ⟨h3, _, _⟩
    rcases ParseArguments_command strtol argv h3 with ⟨s, hs, _, _⟩
    rw [hs] at hn
    cases hn
  · rcases ParseArguments_zero_command strtol argv h0 with ⟨h3, hb, _⟩
    rcases ParseArguments_command strtol argv h3 with ⟨s1, hs1, hc, _⟩
    rw [hs1] at hs
    cases hs
    rw [hc, he] at hb
    revert hb
    decide
  · rcases ParseArguments_zero_command strtol argv h0 with ⟨h3, _, hm⟩
    rcases ParseArguments_command strtol argv h3 with ⟨s1, hs1, hc, _⟩
    rw [hs1] at hs
    cases hs
    have e1 : (ParseArguments strtol argv).globals.command &&& b1 = b1 := by
      rw [hc]
      exact foldl_or_contains _ b1 0 (Or.inl h1)
    have e2 : (ParseArguments strtol argv).globals.command &&& b2 = b2 := by
      rw [hc]
      exact foldl_or_contains _ b2 0 (Or.inl h2)
    exact hne (commandBits_disjoint _ b1 b2 hm (commandsGiven_mem argv s b1 h1)
      (commandsGiven_mem argv s b2 h2) e1 e2)

/-- Witness of C16: the mount command line is accepted with the command word
`COMMAND_MOUNT`; a command line with `-info` and `-meta` is refused, and so
is one with no command. -/
theorem C16_exactly_one_command_witness :
    ((ParseArguments sampleStrtol mountArgv).retval = 0 ∧
      (ParseArguments sampleStrtol mountArgv).globals.command = COMMAND_MOUNT ∧
      numberOfOneBits (ParseArguments sampleStrtol mountArgv).globals.command = 1 ∧
      (ParseArguments sampleStrtol mountArgv).globals.command ∈ commandBits) ∧
    (∃ s, (ParseArguments sampleStrtol ["vixMntApiSample.exe", "-info", "-meta", "a.vmdk"]).scan
        = some s ∧
      COMMAND_INFO ∈ commandsGiven ["vixMntApiSample.exe", "-info", "-meta", "a.vmdk"] s ∧
      COMMAND_DUMP_META ∈ commandsGiven ["vixMntApiSample.exe", "-info", "-meta", "a.vmdk"] s ∧
      (ParseArguments sampleStrtol
        ["vixMntApiSample.exe", "-info", "-meta", "a.vmdk"]).retval ≠ 0) ∧
    (∃ s, (ParseArguments sampleStrtol ["vixMntApiSample.exe", "-libdir", "lib", "a.vmdk"]).scan
        = some s ∧
      commandsGiven ["vixMntApiSample.exe", "-libdir", "lib", "a.vmdk"] s = [] ∧
      (ParseArguments sampleStrtol
        ["vixMntApiSample.exe", "-libdir", "lib", "a.vmdk"]).retval ≠ 0) :=
  ⟨⟨by decide, by decide,
      ((C16_exactly_one_command sampleStrtol mountArgv).2.1 (by decide)).1,
      ((C16_exactly_one_command sampleStrtol mountArgv).2.1 (by decide)).2⟩,
    ⟨_, rfl, by decide, by decide,
      (C16_exactly_one_command sampleStrtol
        ["vixMntApiSample.exe", "-info", "-meta", "a.vmdk"]).2.2.2.2 _ COMMAND_INFO
        COMMAND_DUMP_META rfl (by decide) (by decide) (by decide)⟩,
    ⟨_, rfl, by decide,
      (C16_exactly_one_command sampleStrtol
        ["vixMntApiSample.exe", "-libdir", "lib", "a.vmdk"]).2.2.2.1 _ rfl (by decide)⟩⟩

end VixMntApiSample
